import Mathlib

/-!
# Verification of the Storm unit-of-work engine (storm/store.py, storm/database.py)

This file gives a shallow embedding of the unit-of-work engine of the Storm
object-relational mapper (`storm/store.py`) and of the parameter-mark
translation helper (`storm/database.py`), and proves properties of the
embedded definitions.

Conventions of the embedding:
* Python strings are `List Char`; the helpers `pySplit`, `pyReplace`,
  `pyJoin`, `pyContains` embed `str.split`, `str.replace`, `str.join` and
  the `in` substring test (for non-empty patterns).
* Database values (`Val`) are `Option Int`; `none` embeds Python `None`
  (SQL NULL).  A *missing* entry in an association list of field values
  embeds storm's `Undef` (the field has no defined value at all).
* Python object identities (`id(obj)`) are natural numbers; the side table
  from identity to per-object state (`storm/info.py`, which is not part of
  the sources at hand) is the `heap` association list of a `Sys`.
* Mutating methods of `Store` are state transformers `Sys → Sys × Option
  StoreErr`; a `some e` second component embeds a raised `StoreError`.  The
  returned state carries all mutations performed before the raise, matching
  Python exception semantics.
* `WeakValueDictionary` is embedded as an ordinary association list; garbage
  collection of cache entries is not modelled (no claim depends on it).
-/

/-- Database / field values: `none` is Python `None` (SQL NULL). -/
abbrev Val := Option Int

/-- Update an association list at a key, keeping the key's position, or
append the binding if the key is absent (Python `d[k] = v`). -/
def assocSet [BEq α] (k : α) (v : β) : List (α × β) → List (α × β)
  | [] => [(k, v)]
  | (k', v') :: rest =>
    if k' == k then (k, v) :: rest else (k', v') :: assocSet k v rest

/-- Delete a key from an association list (Python `del d[k]` /
`d.pop(k, None)`). -/
def assocDel [BEq α] (k : α) (l : List (α × β)) : List (α × β) :=
  l.filter (fun e => !(e.1 == k))

/-! ## Parameter-mark translation (storm/database.py)

```python
def convert_param_marks(statement, from_param_mark, to_param_mark):
    if from_param_mark == to_param_mark or from_param_mark not in statement:
        return statement
    tokens = statement.split("'")
    for i in range(0, len(tokens), 2):
        tokens[i] = tokens[i].replace(from_param_mark, to_param_mark)
    return "'".join(tokens)
```
-/

/-- Python `s.split(sep)` for a one-character separator: every occurrence
splits, empty tokens are kept, the result is never empty. -/
def pySplit (sep : Char) : List Char → List (List Char)
  | [] => [[]]
  | c :: cs =>
    match pySplit sep cs with
    | [] => [[]]
    | t :: ts => if c = sep then [] :: t :: ts else (c :: t) :: ts

/-- Python `s.replace(pat, rep)` for a non-empty pattern: left-to-right,
non-overlapping.  (The Python corner case of an empty pattern is not
modelled; `convert_param_marks` is only ever called with the engine's
canonical mark `"?"`.) -/
def pyReplace (pat rep : List Char) : List Char → List Char
  | [] => []
  | c :: cs =>
    if h : pat ≠ [] ∧ pat.isPrefixOf (c :: cs) then
      rep ++ pyReplace pat rep (List.drop pat.length (c :: cs))
    else
      c :: pyReplace pat rep cs
termination_by s => s.length
decreasing_by
  · simp only [List.length_drop, List.length_cons]
    have hp : 0 < pat.length := List.length_pos.mpr h.1
    omega
  · simp

/-- Python `sep.join(tokens)` for a one-character separator. -/
def pyJoin (sep : Char) : List (List Char) → List Char
  | [] => []
  | [t] => t
  | t :: u :: ts => t ++ sep :: pyJoin sep (u :: ts)

/-- Python `pat in s` (substring containment). -/
def pyContains (pat s : List Char) : Bool :=
  s.tails.any (fun t => pat.isPrefixOf t)

/-- Apply `f` to the tokens at even positions (`range(0, len(tokens), 2)`):
the flag is `true` exactly at even indices and toggles per element. -/
def replaceAlt (f : List Char → List Char) : Bool → List (List Char) → List (List Char)
  | _, [] => []
  | b, t :: ts => (if b then f t else t) :: replaceAlt f (!b) ts

/-- `storm.database.convert_param_marks`. -/
def convert_param_marks (statement fromMark toMark : List Char) : List Char :=
  if fromMark = toMark ∨ pyContains fromMark statement = false then statement
  else
    pyJoin '\'' (replaceAlt (pyReplace fromMark toMark) true (pySplit '\'' statement))

/-- Reference reading of the specification: rewrite a single-character
parameter mark into the target mark while skipping text enclosed in
single-quoted string literals; `inLit` tracks whether the scan position is
currently inside such a literal. -/
def specConvert (f : Char) (toMark : List Char) : Bool → List Char → List Char
  | _, [] => []
  | inLit, c :: cs =>
    if c = '\'' then c :: specConvert f toMark (!inLit) cs
    else if !inLit && c == f then toMark ++ specConvert f toMark inLit cs
    else c :: specConvert f toMark inLit cs

theorem pySplit_ne_nil (sep : Char) (s : List Char) : pySplit sep s ≠ [] := by
  cases s with
  | nil => simp [pySplit]
  | cons c cs =>
    unfold pySplit
    cases h : pySplit sep cs with
    | nil => simp
    | cons t ts => by_cases hc : c = sep <;> simp [hc]

theorem pyReplace_nil (pat rep : List Char) : pyReplace pat rep [] = [] := by
  rw [pyReplace]

theorem pyReplace_one (f : Char) (rep : List Char) (c : Char) (cs : List Char) :
    pyReplace [f] rep (c :: cs) =
      if c = f then rep ++ pyReplace [f] rep cs else c :: pyReplace [f] rep cs := by
  rw [pyReplace]
  by_cases hc : c = f
  · subst hc
    simp [List.isPrefixOf]
  · rw [dif_neg, if_neg hc]
    simp [List.isPrefixOf]
    intro h
    exact hc h.symm

theorem pyJoin_cons_append (sep : Char) (a t : List Char) (ts : List (List Char)) :
    pyJoin sep ((a ++ t) :: ts) = a ++ pyJoin sep (t :: ts) := by
  cases ts <;> simp [pyJoin]

theorem specConvert_self (f : Char) (s : List Char) :
    ∀ b : Bool, specConvert f [f] b s = s := by
  induction s with
  | nil => intro b; simp [specConvert]
  | cons c cs ih =>
    intro b
    by_cases hc : c = '\''
    · simp [specConvert, hc, ih]
    · by_cases hf : c = f
      · subst hf
        cases b <;> simp [specConvert, hc, ih]
      · simp [specConvert, hc, hf, ih]

theorem specConvert_not_mem (f : Char) (toMark : List Char) (s : List Char)
    (h : f ∉ s) : ∀ b : Bool, specConvert f toMark b s = s := by
  induction s with
  | nil => intro b; simp [specConvert]
  | cons c cs ih =>
    intro b
    have hc : c ≠ f := fun hcf => h (hcf ▸ List.mem_cons_self c cs)
    have hcs : f ∉ cs := fun hm => h (List.mem_cons_of_mem c hm)
    by_cases hq : c = '\''
    · simp [specConvert, hq, ih hcs]
    · have : (c == f) = false := by simp [hc]
      simp [specConvert, hq, this, ih hcs]

theorem pyContains_one_false (f : Char) (s : List Char)
    (h : pyContains [f] s = false) : f ∉ s := by
  induction s with
  | nil => simp
  | cons c cs ih =>
    simp only [pyContains, List.tails_cons, List.any_cons, Bool.or_eq_false_iff,
      List.isPrefixOf] at h
    obtain ⟨h1, h2⟩ := h
    intro hm
    rcases List.mem_cons.mp hm with hm | hm
    · rw [hm] at h1
      simp [List.isPrefixOf] at h1
    · exact ih h2 hm

theorem convertAux (f : Char) (toMark : List Char) (hf : f ≠ '\'') (s : List Char) :
    ∀ b : Bool,
      pyJoin '\'' (replaceAlt (pyReplace [f] toMark) b (pySplit '\'' s))
        = specConvert f toMark (!b) s := by
  induction s with
  | nil =>
    intro b
    cases b <;> simp [pySplit, replaceAlt, pyJoin, specConvert, pyReplace_nil]
  | cons c cs ih =>
    intro b
    obtain ⟨t, ts, hsplit⟩ : ∃ t ts, pySplit '\'' cs = t :: ts := by
      cases h : pySplit '\'' cs with
      | nil => exact absurd h (pySplit_ne_nil '\'' cs)
      | cons t ts => exact ⟨t, ts, rfl⟩
    by_cases hc : c = '\''
    · subst hc
      have h1 : pySplit '\'' ('\'' :: cs) = [] :: t :: ts := by
        simp [pySplit, hsplit]
      have h2 := ih (!b)
      rw [hsplit] at h2
      rw [h1]
      have hhead : replaceAlt (pyReplace [f] toMark) b ([] :: t :: ts)
          = [] :: replaceAlt (pyReplace [f] toMark) (!b) (t :: ts) := by
        cases b <;> simp [replaceAlt, pyReplace_nil]
      rw [hhead]
      obtain ⟨x, xs, hx⟩ : ∃ x xs,
          replaceAlt (pyReplace [f] toMark) (!b) (t :: ts) = x :: xs := by
        cases b <;> exact ⟨_, _, rfl⟩
      rw [hx]
      have hjoin : pyJoin '\'' ([] :: x :: xs) = '\'' :: pyJoin '\'' (x :: xs) := by
        simp [pyJoin]
      rw [hjoin, ← hx, h2]
      simp [specConvert]
    · have h1 : pySplit '\'' (c :: cs) = (c :: t) :: ts := by
        simp [pySplit, hsplit, hc]
      rw [h1]
      cases b with
      | true =>
        have h2 := ih true
        rw [hsplit] at h2
        have hrepl : replaceAlt (pyReplace [f] toMark) true ((c :: t) :: ts)
            = pyReplace [f] toMark (c :: t) :: replaceAlt (pyReplace [f] toMark) false ts := by
          simp [replaceAlt]
        rw [hrepl, pyReplace_one]
        have hrepl2 : replaceAlt (pyReplace [f] toMark) true (t :: ts)
            = pyReplace [f] toMark t :: replaceAlt (pyReplace [f] toMark) false ts := by
          simp [replaceAlt]
        by_cases hcf : c = f
        · subst hcf
          rw [if_pos rfl, pyJoin_cons_append, ← hrepl2, h2]
          simp [specConvert, hc]
        · rw [if_neg hcf]
          have hsingle : (c :: pyReplace [f] toMark t) = [c] ++ pyReplace [f] toMark t := rfl
          rw [hsingle, pyJoin_cons_append, ← hrepl2, h2]
          have hbeq : (c == f) = false := by simp [hcf]
          simp [specConvert, hc, hbeq]
      | false =>
        have h2 := ih false
        rw [hsplit] at h2
        have hrepl : replaceAlt (pyReplace [f] toMark) false ((c :: t) :: ts)
            = (c :: t) :: replaceAlt (pyReplace [f] toMark) true ts := by
          simp [replaceAlt]
        rw [hrepl]
        have hsingle : ((c :: t) : List Char) = [c] ++ t := rfl
        rw [hsingle, pyJoin_cons_append]
        have hrepl2 : replaceAlt (pyReplace [f] toMark) false (t :: ts)
            = t :: replaceAlt (pyReplace [f] toMark) true ts := by
          simp [replaceAlt]
        rw [← hrepl2, h2]
        simp [specConvert, hc]

/-- **C8.** `convert_param_marks` replaces every occurrence of the source
parameter mark with the target mark outside single-quoted string literals,
leaves the contents of single-quoted literals unchanged (parts 1–2: it
coincides with the quote-parity reference `specConvert` for the engine's
single-character canonical mark), and returns the statement unchanged when
the source mark equals the target mark or does not occur in the statement. -/
theorem convert_param_marks_correct :
    (∀ (s toMark : List Char) (f : Char), f ≠ '\'' →
        convert_param_marks s [f] toMark = specConvert f toMark false s)
    ∧ (∀ (s fromMark toMark : List Char), fromMark = toMark →
        convert_param_marks s fromMark toMark = s)
    ∧ (∀ (s fromMark toMark : List Char), pyContains fromMark s = false →
        convert_param_marks s fromMark toMark = s) := by
  refine ⟨?_, ?_, ?_⟩
  · intro s toMark f hf
    unfold convert_param_marks
    by_cases hcond : [f] = toMark ∨ pyContains [f] s = false
    · rw [if_pos hcond]
      rcases hcond with hcond | hcond
      · rw [← hcond]
        exact (specConvert_self f s false).symm
      · exact (specConvert_not_mem f toMark s (pyContains_one_false f s hcond) false).symm
    · rw [if_neg hcond]
      have := convertAux f toMark hf s true
      simpa using this
  · intro s fromMark toMark h
    unfold convert_param_marks
    rw [if_pos (Or.inl h)]
  · intro s fromMark toMark h
    unfold convert_param_marks
    rw [if_pos (Or.inr h)]

/-- Witness for C8 at a concrete statement: `"a?b'c?d'e?"` with source mark
`?` and target mark `%s`. -/
theorem convert_param_marks_correct_witness :
    convert_param_marks ("a?b'c?d'e?".toList) ['?'] ['%', 's']
      = specConvert '?' ['%', 's'] false ("a?b'c?d'e?".toList) :=
  convert_param_marks_correct.1 ("a?b'c?d'e?".toList) ['%', 's'] '?' (by decide)

/-! ## The unit-of-work engine (storm/store.py)

The embedding follows `storm/store.py` line by line.  Per-object state
(`obj_info` of `storm/info.py`, which is not among the sources) is a record
`ObjInfo`; its operations (`save`, `checkpoint`, `check_changed`,
`get_changes`, the `changed` hook) are modelled from the spec where noted.
The external connection/driver collaborator is modelled from the spec's
external-interface section (§6): `execute` of a SELECT/INSERT/DELETE/UPDATE
expression against a table of rows keyed by primary-key tuple, with a
statement log and a "last inserted identity" accessor for server-generated
keys. -/

/-- The `pending` flag: `PENDING_ADD = 1`, `PENDING_REMOVE = 2`. -/
inductive Pending
  | add
  | remove
deriving DecidableEq

/-- The distinct `StoreError` conditions raised by `storm/store.py`,
one constructor per distinct message. -/
inductive StoreErr
  /-- `"%r is part of another store"` -/
  | partOfAnotherStore
  /-- `"%r is already scheduled to be added"` -/
  | alreadyScheduledAdd
  /-- `"%r is already scheduled to be removed"` -/
  | alreadyScheduledRemove
  /-- `"%r is already in the store"` -/
  | alreadyInStore
  /-- `"%r is not in this store"` -/
  | notInStore
  /-- `"Can't reload an object if it was never flushed"` -/
  | neverFlushed
  /-- `"Can't flush due to ordering loop"` -/
  | orderingLoop
  /-- Model artifact: operation on an object identity with no per-object
  state in the heap (unreachable in Python, where `get_obj_info` creates
  state on demand). -/
  | missingObject
deriving DecidableEq

/-- Per-class structural description (`cls_info` of storm/info.py): table
name, column names in declaration order, primary-key column subset. -/
structure ClsInfo where
  table : String
  columns : List String
  primaryKey : List String
deriving DecidableEq

/-- Per-object mutable state (`obj_info`).  `values` holds the defined
field values (absence of a key embeds `Undef`); `checkpointVals` is the
checkpoint snapshot used to compute diffs; `saved` is the rollback snapshot
taken by `obj_info.save()`; `primaryValues` is the cached primary-key tuple
(`obj_info["primary_values"]`, absent until first flush); `hooked` records
whether the store's `changed` hook is attached. -/
structure ObjInfo where
  store : Option Nat
  pending : Option Pending
  values : List (String × Val)
  checkpointVals : List (String × Val)
  saved : Option (List (String × Val))
  primaryValues : Option (List Val)
  hooked : Bool
  cls : ClsInfo
deriving DecidableEq

/-- Statements issued to the external connection. -/
inductive Stmt
  | selectStmt (table : String) (key : List Val)
  | insertStmt (table : String) (row : List (String × Val))
  | deleteStmt (table : String) (key : List Val)
  | updateStmt (table : String) (key : List Val) (sets : List (String × Val))
deriving DecidableEq

/-- Modelled from the spec: the external connection/driver collaborator
(§6).  `db` is the backing table store, rows keyed by (table name,
primary-key tuple); `log` records every executed statement; `nextSerial`
and `lastInsertPk` model server-generated keys and the backend-specific
"last inserted identity" accessor. -/
structure ConnState where
  db : List ((String × List Val) × List (String × Val))
  log : List Stmt
  nextSerial : Int
  lastInsertPk : Option (List Val)
deriving DecidableEq

/-- The store's own bookkeeping: `sid` is the store's identity (the target
of `obj_info["store"]` back-references), and `cache`, `ghosts`, `dirty`,
`order` embed `self._cache`, `self._ghosts`, `self._dirty`, `self._order`.
`flushed` records the sequence of `obj_info.emit("flushed")` events. -/
structure StoreState where
  sid : Nat
  cache : List ((String × List Val) × Nat)
  ghosts : List Nat
  dirty : List Nat
  order : List ((Nat × Nat) × Int)
  flushed : List Nat
deriving DecidableEq

/-- A whole system: the side table from object identity to per-object
state, the connection, the store, and a fresh-identity counter for objects
materialized from query results. -/
structure Sys where
  heap : List (Nat × ObjInfo)
  conn : ConnState
  store : StoreState
  nextOid : Nat
deriving DecidableEq

def Sys.obj (sys : Sys) (oid : Nat) : Option ObjInfo :=
  sys.heap.lookup oid

def Sys.setObj (sys : Sys) (oid : Nat) (info : ObjInfo) : Sys :=
  {sys with heap := assocSet oid info sys.heap}

namespace Store

/-- `Store._is_dirty`. -/
def isDirty (sys : Sys) (oid : Nat) : Bool :=
  sys.store.dirty.contains oid

/-- `Store._set_dirty` (`self._dirty[id(obj)] = obj`; inserting an existing
key leaves the dict unchanged). -/
def setDirty (sys : Sys) (oid : Nat) : Sys :=
  if sys.store.dirty.contains oid then sys
  else {sys with store.dirty := sys.store.dirty ++ [oid]}

/-- `Store._set_clean` (`self._dirty.pop(id(obj), None)`). -/
def setClean (sys : Sys) (oid : Nat) : Sys :=
  {sys with store.dirty := sys.store.dirty.erase oid}

/-- `Store._is_ghost`. -/
def isGhost (sys : Sys) (oid : Nat) : Bool :=
  sys.store.ghosts.contains oid

/-- `Store._set_ghost`. -/
def setGhost (sys : Sys) (oid : Nat) : Sys :=
  if sys.store.ghosts.contains oid then sys
  else {sys with store.ghosts := sys.store.ghosts ++ [oid]}

/-- `Store._set_alive` (`self._ghosts.pop(id(obj), None)`). -/
def setAlive (sys : Sys) (oid : Nat) : Sys :=
  {sys with store.ghosts := sys.store.ghosts.erase oid}

/-- Modelled from the spec: `obj_info.save()` of storm/info.py (not in
src/) — take the rollback snapshot of the object's state; the checkpoint
baseline used for diffs coincides with it when taken. -/
def objSave (info : ObjInfo) : ObjInfo :=
  {info with saved := some info.values, checkpointVals := info.values}

/-- Modelled from the spec: `obj_info.checkpoint()` — make the current
field values the new diff baseline. -/
def objCheckpoint (info : ObjInfo) : ObjInfo :=
  {info with checkpointVals := info.values}

/-- Modelled from the spec: `obj_info.check_changed()` — whether any
column's current value differs from the checkpoint snapshot. -/
def checkChanged (info : ObjInfo) : Bool :=
  info.cls.columns.any (fun c => info.values.lookup c != info.checkpointVals.lookup c)

/-- Modelled from the spec: `obj_info.get_changes()` restricted to defined
values, as consumed by the UPDATE branch of `Store._flush_one` (columns
whose current defined value differs from the checkpoint). -/
def getChanges (info : ObjInfo) : List (String × Val) :=
  info.cls.columns.filterMap (fun c =>
    match info.values.lookup c with
    | some v => if info.checkpointVals.lookup c ≠ some v then some (c, v) else none
    | none => none)

/-- `Store._add_to_cache`. -/
def addToCache (sys : Sys) (oid : Nat) : Sys :=
  match sys.obj oid with
  | none => sys
  | some info =>
    let newPV := info.cls.primaryKey.map (fun c => (info.values.lookup c).getD none)
    if info.primaryValues = some newPV then sys
    else
      let cache1 := match info.primaryValues with
        | some old => assocDel (info.cls.table, old) sys.store.cache
        | none => sys.store.cache
      let sys1 := {sys with store.cache := assocSet (info.cls.table, newPV) oid cache1}
      sys1.setObj oid {info with primaryValues := some newPV}

/-- `Store._remove_from_cache`. -/
def removeFromCache (sys : Sys) (oid : Nat) : Sys :=
  match sys.obj oid with
  | none => sys
  | some info =>
    match info.primaryValues with
    | none => sys
    | some pv =>
      let sys1 := {sys with store.cache := assocDel (info.cls.table, pv) sys.store.cache}
      sys1.setObj oid {info with primaryValues := none}

end Store

/-- Modelled from the spec: executing a primary-key SELECT against the
external connection: log the statement, return the matching row if any. -/
def connSelect (conn : ConnState) (table : String) (key : List Val) :
    ConnState × Option (List (String × Val)) :=
  ({conn with log := conn.log ++ [.selectStmt table key]}, conn.db.lookup (table, key))

/-- Modelled from the spec: executing a primary-key DELETE. -/
def connDelete (conn : ConnState) (table : String) (key : List Val) : ConnState :=
  {conn with
    db := assocDel (table, key) conn.db,
    log := conn.log ++ [.deleteStmt table key]}

/-- Modelled from the spec: executing a primary-key UPDATE of the given
column assignments. -/
def connUpdate (conn : ConnState) (table : String) (key : List Val)
    (sets : List (String × Val)) : ConnState :=
  {conn with
    db := conn.db.map (fun e =>
      if e.1 == (table, key) then (e.1, sets.foldl (fun r p => assocSet p.1 p.2 r) e.2)
      else e),
    log := conn.log ++ [.updateStmt table key sets]}

/-- Modelled from the spec: executing an INSERT of the supplied columns;
the server generates values for primary-key columns that were not supplied
(serial keys) and exposes the inserted identity via `lastInsertPk`. -/
def connInsert (conn : ConnState) (cls : ClsInfo) (row : List (String × Val)) : ConnState :=
  let gen := cls.primaryKey.filter (fun c => (row.lookup c).isNone)
  let genPairs : List (String × Val) :=
    gen.enum.map (fun p => (p.2, some (conn.nextSerial + (p.1 : Int))))
  let fullRow := row ++ genPairs
  let pk := cls.primaryKey.map (fun c => (fullRow.lookup c).getD none)
  { db := conn.db ++ [((cls.table, pk), fullRow)],
    log := conn.log ++ [.insertStmt cls.table row],
    nextSerial := conn.nextSerial + gen.length,
    lastInsertPk := some pk }

namespace Store

/-- Modelled from the spec: a field write through the Object Metadata
accessor layer (storm/info.py, not in src/): the new value is recorded and
the `changed` hook fires on any field write (spec §4.3).  When change
notification is enabled the hook is `Store._object_changed`
(src/storm/store.py), which marks the object dirty whenever the written
value is not `Undef` — a written `Val` is always a defined value here. -/
def writeField (sys : Sys) (oid : Nat) (name : String) (v : Val) : Sys :=
  match sys.obj oid with
  | none => sys
  | some info =>
    let sys1 := sys.setObj oid {info with values := assocSet name v info.values}
    if info.hooked then setDirty sys1 oid else sys1

/-- A sequence of field writes, applied left to right. -/
def writeFields (sys : Sys) (oid : Nat) (ws : List (String × Val)) : Sys :=
  ws.foldl (fun s w => writeField s oid w.1 w.2) sys

/-- `Store.add`. -/
def add (sys : Sys) (oid : Nat) : Sys × Option StoreErr :=
  match sys.obj oid with
  | none => (sys, some .missingObject)
  | some info =>
    if info.store ≠ none ∧ info.store ≠ some sys.store.sid then
      (sys, some .partOfAnotherStore)
    else
      match info.pending with
      | some .add => (sys, some .alreadyScheduledAdd)
      | some .remove => (sys.setObj oid {info with pending := none}, none)
      | none =>
        match info.store with
        | none =>
          let info1 := {objSave info with store := some sys.store.sid,
                                          pending := some Pending.add}
          (setDirty (sys.setObj oid info1) oid, none)
        | some _ =>
          if !(isGhost sys oid) then (sys, some .alreadyInStore)
          else
            let sys1 := setAlive sys oid
            let info1 := {info with pending := some Pending.add}
            (setDirty (sys1.setObj oid info1) oid, none)

/-- `Store.remove`. -/
def remove (sys : Sys) (oid : Nat) : Sys × Option StoreErr :=
  match sys.obj oid with
  | none => (sys, some .missingObject)
  | some info =>
    if info.store ≠ some sys.store.sid then (sys, some .notInStore)
    else
      match info.pending with
      | some .remove => (sys, some .alreadyScheduledRemove)
      | some .add =>
        let sys1 := sys.setObj oid {info with pending := none}
        (setClean (setGhost sys1 oid) oid, none)
      | none =>
        (setDirty (sys.setObj oid {info with pending := some Pending.remove}) oid, none)

/-- `Store.reload`.  (A SELECT returning no row would crash in Python when
zipping columns with `None`; that corner is left as the identity on the
object's values.) -/
def reload (sys : Sys) (oid : Nat) : Sys × Option StoreErr :=
  match sys.obj oid with
  | none => (sys, some .missingObject)
  | some info =>
    if info.store ≠ some sys.store.sid then (sys, some .notInStore)
    else
      match info.primaryValues with
      | none => (sys, some .neverFlushed)
      | some pv =>
        let res := connSelect sys.conn info.cls.table pv
        let sys1 := {sys with conn := res.1}
        let newVals := match res.2 with
          | some row => info.cls.columns.foldl (fun vs c =>
              match row.lookup c with
              | some v => assocSet c v vs
              | none => vs) info.values
          | none => info.values
        let info1 := objCheckpoint {info with values := newVals}
        (setClean (sys1.setObj oid info1) oid, none)

/-- `Store.add_flush_order`. -/
def addFlushOrder (sys : Sys) (before after : Nat) : Sys :=
  {sys with store.order :=
    (assocSet (before, after) (((sys.store.order.lookup (before, after)).getD 0) + 1)
      sys.store.order)}

/-- `Store.remove_flush_order` (a missing pair is a no-op: `except
KeyError: pass`). -/
def removeFlushOrder (sys : Sys) (before after : Nat) : Sys :=
  match sys.store.order.lookup (before, after) with
  | some n => {sys with store.order := assocSet (before, after) (n - 1) sys.store.order}
  | none => sys

/-- `Store._fill_missing_values`. -/
def fillMissingValues (sys : Sys) (oid : Nat) : Sys :=
  match sys.obj oid with
  | none => sys
  | some info =>
    let missing := info.cls.columns.filter (fun c => (info.values.lookup c).isNone)
    if missing.isEmpty then sys
    else
      let pvOpts := info.cls.primaryKey.map (fun c => info.values.lookup c)
      let key := if pvOpts.all (fun o => o.isSome)
        then pvOpts.map (fun o => o.getD none)
        else sys.conn.lastInsertPk.getD []
      let res := connSelect sys.conn info.cls.table key
      let sys1 := {sys with conn := res.1}
      match res.2 with
      | none => sys1
      | some row =>
        let newVals := missing.foldl (fun vs c =>
            match row.lookup c with
            | some v => assocSet c v vs
            | none => vs) info.values
        sys1.setObj oid {info with values := newVals}

/-- `Store._enable_change_notification`: hook the store's `changed`
handler on the object. -/
def enableChangeNotification (sys : Sys) (oid : Nat) : Sys :=
  match sys.obj oid with
  | some i => sys.setObj oid {i with hooked := true}
  | none => sys

/-- `obj_info.checkpoint()` applied through the heap. -/
def checkpointObj (sys : Sys) (oid : Nat) : Sys :=
  match sys.obj oid with
  | some i => sys.setObj oid (objCheckpoint i)
  | none => sys

/-- The per-object flush action of `Store._flush_one`, after the object has
been popped from the dirty set and its `pending` flag popped: DELETE for
pending-remove, INSERT (with post-insert reconciliation) for pending-add,
diff-guarded UPDATE otherwise. -/
def flushAction (sys : Sys) (oid : Nat) (info : ObjInfo) (pending : Option Pending) : Sys :=
  match pending with
  | some .remove =>
    let pk := info.primaryValues.getD []
    let sys1 := {sys with conn := connDelete sys.conn info.cls.table pk}
    let sys2 := sys1.setObj oid {info with hooked := false}
    removeFromCache (setGhost sys2 oid) oid
  | some .add =>
    let row := info.cls.columns.filterMap (fun c =>
      (info.values.lookup c).map (fun v => (c, v)))
    let sys1 := {sys with conn := connInsert sys.conn info.cls row}
    let sys2 := fillMissingValues sys1 oid
    let sys3 := enableChangeNotification sys2 oid
    let sys4 := addToCache (setAlive sys3 oid) oid
    checkpointObj sys4 oid
  | none =>
    if checkChanged info then
      let sets := getChanges info
      let sys1 :=
        if sets.isEmpty then sys
        else
          let pk := info.primaryValues.getD []
          addToCache {sys with conn := connUpdate sys.conn info.cls.table pk sets} oid
      checkpointObj sys1 oid
    else sys

/-- `Store._flush_one`: pop the object from the dirty set (returning
unchanged if it was not there), pop its `pending` flag, run the flush
action, and emit `"flushed"`. -/
def flushOne (sys : Sys) (oid : Nat) : Sys :=
  if sys.store.dirty.contains oid then
    let sys1 := {sys with store.dirty := sys.store.dirty.erase oid}
    match sys1.obj oid with
    | none => sys1
    | some info =>
      let sys2 := sys1.setObj oid {info with pending := none}
      let sys3 := flushAction sys2 oid {info with pending := none} info.pending
      {sys3 with store.flushed := sys3.store.flushed ++ [oid]}
  else sys

/-- Whether some positive-count constraint pair names `oid` as its `after`
and a currently dirty object as its `before` (the predecessor scan of
`Store.flush`). -/
def hasDirtyPred (order : List ((Nat × Nat) × Int)) (dirty : List Nat) (oid : Nat) : Bool :=
  order.any (fun e => e.1.2 == oid && decide (0 < e.2) && dirty.contains e.1.1)

end Store

theorem Sys.setObj_store (sys : Sys) (oid : Nat) (info : ObjInfo) :
    (sys.setObj oid info).store = sys.store := rfl

namespace Store

theorem setGhost_store_dirty (sys : Sys) (oid : Nat) :
    (setGhost sys oid).store.dirty = sys.store.dirty := by
  unfold setGhost; split <;> rfl

theorem setGhost_store_flushed (sys : Sys) (oid : Nat) :
    (setGhost sys oid).store.flushed = sys.store.flushed := by
  unfold setGhost; split <;> rfl

theorem setAlive_store_dirty (sys : Sys) (oid : Nat) :
    (setAlive sys oid).store.dirty = sys.store.dirty := rfl

theorem setAlive_store_flushed (sys : Sys) (oid : Nat) :
    (setAlive sys oid).store.flushed = sys.store.flushed := rfl

theorem addToCache_store_dirty (sys : Sys) (oid : Nat) :
    (addToCache sys oid).store.dirty = sys.store.dirty := by
  unfold addToCache
  cases h : sys.obj oid with
  | none => rfl
  | some info => simp only [h]; split <;> rfl

theorem addToCache_store_flushed (sys : Sys) (oid : Nat) :
    (addToCache sys oid).store.flushed = sys.store.flushed := by
  unfold addToCache
  cases h : sys.obj oid with
  | none => rfl
  | some info => simp only [h]; split <;> rfl

theorem removeFromCache_store_dirty (sys : Sys) (oid : Nat) :
    (removeFromCache sys oid).store.dirty = sys.store.dirty := by
  unfold removeFromCache
  cases h : sys.obj oid with
  | none => rfl
  | some info => simp only [h]; cases info.primaryValues <;> rfl

theorem removeFromCache_store_flushed (sys : Sys) (oid : Nat) :
    (removeFromCache sys oid).store.flushed = sys.store.flushed := by
  unfold removeFromCache
  cases h : sys.obj oid with
  | none => rfl
  | some info => simp only [h]; cases info.primaryValues <;> rfl

theorem enableChangeNotification_store (sys : Sys) (oid : Nat) :
    (enableChangeNotification sys oid).store = sys.store := by
  unfold enableChangeNotification
  cases h : sys.obj oid with
  | none => rfl
  | some info => rfl

theorem checkpointObj_store (sys : Sys) (oid : Nat) :
    (checkpointObj sys oid).store = sys.store := by
  unfold checkpointObj
  cases h : sys.obj oid with
  | none => rfl
  | some info => rfl

theorem fillMissingValues_store (sys : Sys) (oid : Nat) :
    (fillMissingValues sys oid).store = sys.store := by
  unfold fillMissingValues
  cases h : sys.obj oid with
  | none => rfl
  | some info =>
    simp only [h]
    split
    · rfl
    · split <;> rfl

theorem flushAction_store_dirty (sys : Sys) (oid : Nat) (info : ObjInfo)
    (pending : Option Pending) :
    (flushAction sys oid info pending).store.dirty = sys.store.dirty := by
  unfold flushAction
  match pending with
  | some .remove =>
    simp only []
    rw [removeFromCache_store_dirty, setGhost_store_dirty]
    rfl
  | some .add =>
    simp only []
    rw [checkpointObj_store, addToCache_store_dirty, setAlive_store_dirty,
      enableChangeNotification_store, fillMissingValues_store]
  | none =>
    simp only []
    split
    · rw [checkpointObj_store]
      split
      · rfl
      · rw [addToCache_store_dirty]
    · rfl

theorem flushAction_store_flushed (sys : Sys) (oid : Nat) (info : ObjInfo)
    (pending : Option Pending) :
    (flushAction sys oid info pending).store.flushed = sys.store.flushed := by
  unfold flushAction
  match pending with
  | some .remove =>
    simp only []
    rw [removeFromCache_store_flushed, setGhost_store_flushed]
    rfl
  | some .add =>
    simp only []
    rw [checkpointObj_store, addToCache_store_flushed, setAlive_store_flushed,
      enableChangeNotification_store, fillMissingValues_store]
  | none =>
    simp only []
    split
    · rw [checkpointObj_store]
      split
      · rfl
      · rw [addToCache_store_flushed]
    · rfl

theorem flushOne_store_dirty (sys : Sys) (oid : Nat) :
    (flushOne sys oid).store.dirty =
      if sys.store.dirty.contains oid then sys.store.dirty.erase oid
      else sys.store.dirty := by
  unfold flushOne
  split
  · next hc =>
    cases h : ({sys with store.dirty := sys.store.dirty.erase oid} : Sys).obj oid with
    | none => simp only [h]
    | some info =>
      simp only [h]
      rw [flushAction_store_dirty, Sys.setObj_store]
  · next hc => rfl

theorem flushOne_store_dirty_length (sys : Sys) (oid : Nat)
    (h : oid ∈ sys.store.dirty) :
    (flushOne sys oid).store.dirty.length < sys.store.dirty.length := by
  rw [flushOne_store_dirty, if_pos (List.elem_iff.mpr h)]
  have := List.length_erase_add_one h
  omega

/-- The scan loop of `Store.flush`: repeatedly find the first dirty object
without a currently-dirty predecessor and flush it; if the dirty set is
non-empty but no such object exists, raise the ordering-loop error.  The
predecessor table is read once, before the loop (it is not modified by
`_flush_one`). -/
def flushLoop (order : List ((Nat × Nat) × Int)) (sys : Sys) : Sys × Option StoreErr :=
  match sys.store.dirty with
  | [] => (sys, none)
  | _ :: _ =>
    match hf : sys.store.dirty.find? (fun oid => !hasDirtyPred order sys.store.dirty oid) with
    | none => (sys, some .orderingLoop)
    | some oid => flushLoop order (flushOne sys oid)
termination_by sys.store.dirty.length
decreasing_by
  exact flushOne_store_dirty_length sys oid (List.mem_of_find?_eq_some hf)

/-- `Store.flush`: run the scan loop against the current order table and
clear the table once the whole pass succeeds (on an ordering-loop error the
table is left as is). -/
def flush (sys : Sys) : Sys × Option StoreErr :=
  match flushLoop sys.store.order sys with
  | (s1, none) => ({s1 with store.order := []}, none)
  | (s1, some err) => (s1, some err)

end Store

/-- The `key` argument of `Store.get`: a tuple or a bare (scalar) value. -/
inductive KeyArg
  | tup (l : List Val)
  | scalar (v : Val)
deriving DecidableEq

/-- Outcomes of `Store.get` that are not a normal return: a propagated
`StoreError`, or the failure of the `assert len(key) ==
len(cls_info.primary_key)` statement (an `AssertionError`, which is not a
`StoreError`). -/
inductive GetErr
  | storeError (e : StoreErr)
  | assertionFailed
deriving DecidableEq

namespace Store

/-- `Store._load_object` for the `obj=None` case used by `Store.get`:
re-check the identity cache against the row's primary-key values, else
materialize a fresh object, register it and enable change notification.
(`__load__` hooks and `obj_info.save_attributes()` are not modelled.) -/
def loadObject (sys : Sys) (cls : ClsInfo) (row : List (String × Val)) : Sys × Nat :=
  let pv := cls.primaryKey.map (fun c => (row.lookup c).getD none)
  match sys.store.cache.lookup (cls.table, pv) with
  | some oid => (sys, oid)
  | none =>
    let oid := sys.nextOid
    let vals := cls.columns.foldl (fun vs c =>
        match row.lookup c with
        | some v => assocSet c v vs
        | none => vs) []
    let info : ObjInfo :=
      objSave { store := some sys.store.sid, pending := none, values := vals,
                checkpointVals := [], saved := none, primaryValues := none,
                hooked := false, cls := cls }
    let sys1 := {sys with heap := sys.heap ++ [(oid, info)], nextOid := sys.nextOid + 1}
    let sys2 := addToCache sys1 oid
    let sys3 := match sys2.obj oid with
      | some i => sys2.setObj oid {i with hooked := true}
      | none => sys2
    (sys3, oid)

/-- `Store.get`: flush, normalize a non-tuple key to a one-tuple, assert
the key length matches the primary key, hit the identity cache, else SELECT
by primary key and materialize. -/
def get (sys : Sys) (cls : ClsInfo) (key : KeyArg) : Sys × Except GetErr (Option Nat) :=
  match flush sys with
  | (s1, some err) => (s1, .error (.storeError err))
  | (s1, none) =>
    let key' := match key with
      | .tup l => l
      | .scalar v => [v]
    if key'.length ≠ cls.primaryKey.length then (s1, .error .assertionFailed)
    else
      match s1.store.cache.lookup (cls.table, key') with
      | some oid => (s1, .ok (some oid))
      | none =>
        let res := connSelect s1.conn cls.table key'
        let s2 := {s1 with conn := res.1}
        match res.2 with
        | none => (s2, .ok none)
        | some row =>
          let lr := loadObject s2 cls row
          (lr.1, .ok (some lr.2))

/-- `Store.commit`: flush, commit the external connection, drop the
`store` back-reference of every ghost, `save()` every cached object, clear
the ghost set.  (The external `connection.commit()` has no observable
effect in the model.) -/
def commit (sys : Sys) : Sys × Option StoreErr :=
  match flush sys with
  | (s1, some err) => (s1, some err)
  | (s1, none) =>
    let s2 := s1.store.ghosts.foldl (fun s g =>
        match s.obj g with
        | some i => s.setObj g {i with store := none}
        | none => s) s1
    let s3 := s2.store.cache.foldl (fun s e =>
        match s.obj e.2 with
        | some i => s.setObj e.2 (objSave i)
        | none => s) s2
    ({s3 with store.ghosts := []}, none)

end Store

/-! ## Helper lemmas about the store primitives -/

theorem lookup_assocSet_self [BEq α] [LawfulBEq α] (k : α) (v : β) (l : List (α × β)) :
    (assocSet k v l).lookup k = some v := by
  induction l with
  | nil => simp [assocSet, List.lookup]
  | cons e rest ih =>
    by_cases h : e.1 == k
    · simp [assocSet, h, List.lookup]
    · simp only [assocSet]
      rw [if_neg (by simpa using h)]
      simp only [List.lookup]
      have hne : (k == e.1) = false := by
        rw [beq_eq_false_iff_ne]
        intro hk
        exact h (by simp [hk])
      simp only [hne]
      exact ih

theorem Sys.obj_setObj_self (sys : Sys) (oid : Nat) (info : ObjInfo) :
    (sys.setObj oid info).obj oid = some info := by
  unfold Sys.setObj Sys.obj
  exact lookup_assocSet_self oid info sys.heap

namespace Store

theorem isDirty_setDirty_self (sys : Sys) (oid : Nat) :
    isDirty (setDirty sys oid) oid = true := by
  unfold isDirty setDirty
  split
  · next h => exact h
  · simp [List.contains_eq_any_beq]

theorem contains_setDirty_mono (sys : Sys) (x y : Nat)
    (h : sys.store.dirty.contains x = true) :
    (setDirty sys y).store.dirty.contains x = true := by
  unfold setDirty
  split
  · exact h
  · simp only [List.contains_eq_any_beq, List.any_append] at h ⊢
    rw [h]
    rfl

theorem isDirty_writeField_mono (sys : Sys) (oid oid' : Nat) (name : String) (v : Val)
    (h : isDirty sys oid = true) :
    isDirty (writeField sys oid' name v) oid = true := by
  unfold writeField
  cases hobj : sys.obj oid' with
  | none => exact h
  | some info =>
    simp only []
    split
    · exact contains_setDirty_mono _ oid oid' h
    · exact h

theorem isDirty_writeFields_mono (oid : Nat) (ws : List (String × Val)) :
    ∀ sys : Sys, isDirty sys oid = true → isDirty (writeFields sys oid ws) oid = true := by
  induction ws with
  | nil => intro sys h; exact h
  | cons w ws ih =>
    intro sys h
    exact ih (writeField sys oid w.1 w.2) (isDirty_writeField_mono sys oid oid w.1 w.2 h)

theorem isDirty_writeField_hooked (sys : Sys) (oid : Nat) (info : ObjInfo)
    (name : String) (v : Val)
    (h : sys.obj oid = some info) (hh : info.hooked = true) :
    isDirty (writeField sys oid name v) oid = true := by
  unfold writeField
  rw [h]
  simp only [hh, if_true]
  exact isDirty_setDirty_self _ oid

end Store

theorem Store.flushLoop_of_dirty_nil (order : List ((Nat × Nat) × Int)) (sys : Sys)
    (h : sys.store.dirty = []) : Store.flushLoop order sys = (sys, none) := by
  rw [Store.flushLoop, h]

theorem Store.flush_of_dirty_nil (sys : Sys) (h : sys.store.dirty = []) :
    Store.flush sys = ({sys with store.order := []}, none) := by
  unfold Store.flush
  rw [Store.flushLoop_of_dirty_nil _ _ h]

/-! ## Shared concrete fixture: a store owning one already-flushed object

Class `foo(id primary, title)`; object identity `1` with `id = 5`,
`title = 7`, checkpointed at its current values, cached under its primary
key, change notification enabled, matching row in the database. -/

def fooCls : ClsInfo :=
  { table := "foo", columns := ["id", "title"], primaryKey := ["id"] }

def fooRow : List (String × Val) := [("id", some 5), ("title", some 7)]

def fooObj : ObjInfo :=
  { store := some 0, pending := none, values := fooRow,
    checkpointVals := fooRow, saved := some fooRow,
    primaryValues := some [some 5], hooked := true, cls := fooCls }

def fooSys : Sys :=
  { heap := [(1, fooObj)],
    conn := { db := [(("foo", [some 5]), fooRow)], log := [],
              nextSerial := 100, lastInsertPk := none },
    store := { sid := 0, cache := [(("foo", [some 5]), 1)], ghosts := [],
               dirty := [], order := [], flushed := [] },
    nextOid := 10 }

/-! ## C1 — no-op field writes and the dirty flag -/

/-- **C1, counterexample.**  The claim states that a field write whose new
value equals the checkpointed value does not mark the object dirty, and
that after a mutation sequence culminating in the checkpointed values
`is_dirty` is false.  On the fixture: the object is clean, every field
value equals its checkpoint, and the single write `title := 7` rewrites the
checkpointed value — yet afterwards the object *is* dirty, because
`Store._object_changed` marks dirty on every hooked write of a defined
value without comparing against the checkpoint. -/
theorem noop_write_marks_dirty_cex :
    Store.isDirty fooSys 1 = false
    ∧ (fooSys.obj 1).map (fun i => i.values.lookup "title") = some (some (some 7))
    ∧ (fooSys.obj 1).map (fun i => i.checkpointVals.lookup "title") = some (some (some 7))
    ∧ Store.isDirty (Store.writeFields fooSys 1 [("title", some 7)]) 1 = true := by
  refine ⟨rfl, rfl, rfl, ?_⟩
  decide

/-- **C1, amended.**  For every object with change notification enabled,
*every* non-empty sequence of field mutations (of defined values) leaves
the object dirty — in particular a sequence culminating in the checkpointed
values: the `changed` hook marks dirty without comparing the new value to
the checkpoint, so no-op writes are not suppressed. -/
theorem noop_write_marks_dirty (sys : Sys) (oid : Nat) (info : ObjInfo)
    (ws : List (String × Val))
    (hobj : sys.obj oid = some info)
    (hhook : info.hooked = true)
    (hne : ws ≠ [])
    (hculm : ∀ info' : ObjInfo, (Store.writeFields sys oid ws).obj oid = some info' →
      ∀ c : String, info'.values.lookup c = info'.checkpointVals.lookup c) :
    Store.isDirty (Store.writeFields sys oid ws) oid = true := by
  cases ws with
  | nil => exact absurd rfl hne
  | cons w ws' =>
    show Store.isDirty (Store.writeFields (Store.writeField sys oid w.1 w.2) oid ws') oid = true
    exact Store.isDirty_writeFields_mono oid ws' _
      (Store.isDirty_writeField_hooked sys oid info w.1 w.2 hobj hhook)

/-- Witness for C1 (amended) on the fixture: the one-write sequence
`title := 7` culminates in the checkpointed values and leaves the object
dirty. -/
theorem noop_write_marks_dirty_witness :
    Store.isDirty (Store.writeFields fooSys 1 [("title", some 7)]) 1 = true :=
  noop_write_marks_dirty fooSys 1 fooObj [("title", some 7)] rfl rfl
    (by decide) (by
      intro info' h c
      have hcomp : (Store.writeFields fooSys 1 [("title", some 7)]).obj 1 = some fooObj := by
        decide
      rw [hcomp] at h
      cases Option.some.inj h
      rfl)

/-! ## C6 — flush-order counter algebra -/

/-- **C6, counterexample.**  The claim states `remove_flush_order`
decrements the pair's counter so that equal numbers of add and remove calls
cancel.  On the fixture (whose order table is empty): one
`remove_flush_order(1, 2)` followed by one `add_flush_order(1, 2)` — equal
numbers of each — leaves the pair with count `1`, an enforced constraint,
because removing an absent pair is a silent no-op (`except KeyError:
pass`) rather than a decrement to `-1`. -/
theorem flush_order_cancel_cex :
    ((Store.addFlushOrder (Store.removeFlushOrder fooSys 1 2) 1 2).store.order.lookup
        (1, 2)).getD 0 = 1 := by
  decide

/-- **C6, amended.**  `add_flush_order` increments the pair's counter;
`remove_flush_order` decrements it *when the pair has an entry* and is a
silent no-op otherwise — so add-then-remove cancels exactly, but a remove
issued before any add for the pair does not pre-cancel a later add; during
flush only pairs whose count is strictly positive act as constraints (the
predecessor scan is invariant under discarding non-positive entries); and
after every successful flush the constraint table is empty. -/
theorem flush_order_counters :
    (∀ (sys : Sys) (b a : Nat),
        ((Store.addFlushOrder sys b a).store.order.lookup (b, a)).getD 0
          = ((sys.store.order.lookup (b, a)).getD 0) + 1)
    ∧ (∀ (sys : Sys) (b a : Nat) (n : Int), sys.store.order.lookup (b, a) = some n →
        ((Store.removeFlushOrder sys b a).store.order.lookup (b, a)).getD 0 = n - 1)
    ∧ (∀ (sys : Sys) (b a : Nat), sys.store.order.lookup (b, a) = none →
        Store.removeFlushOrder sys b a = sys)
    ∧ (∀ (sys : Sys) (b a : Nat),
        ((Store.removeFlushOrder (Store.addFlushOrder sys b a) b a).store.order.lookup
            (b, a)).getD 0
          = (sys.store.order.lookup (b, a)).getD 0)
    ∧ (∀ (order : List ((Nat × Nat) × Int)) (dirty : List Nat) (oid : Nat),
        Store.hasDirtyPred (order.filter (fun e => decide (0 < e.2))) dirty oid
          = Store.hasDirtyPred order dirty oid)
    ∧ (∀ (sys s1 : Sys), Store.flush sys = (s1, none) → s1.store.order = []) := by
  refine ⟨?_, ?_, ?_, ?_, ?_, ?_⟩
  · intro sys b a
    unfold Store.addFlushOrder
    simp only []
    rw [lookup_assocSet_self]
    rfl
  · intro sys b a n h
    unfold Store.removeFlushOrder
    rw [h]
    simp only []
    rw [lookup_assocSet_self]
    rfl
  · intro sys b a h
    unfold Store.removeFlushOrder
    rw [h]
  · intro sys b a
    have h1 : (Store.addFlushOrder sys b a).store.order.lookup (b, a)
        = some (((sys.store.order.lookup (b, a)).getD 0) + 1) := by
      unfold Store.addFlushOrder
      exact lookup_assocSet_self _ _ _
    unfold Store.removeFlushOrder
    rw [h1]
    simp only []
    rw [lookup_assocSet_self]
    simp
  · intro order dirty oid
    induction order with
    | nil => rfl
    | cons e rest ih =>
      unfold Store.hasDirtyPred at ih ⊢
      by_cases hp : (0 : Int) < e.2
      · rw [List.filter_cons, if_pos (by simpa using hp)]
        simp only [List.any_cons]
        rw [ih]
      · rw [List.filter_cons, if_neg (by simpa using hp)]
        rw [ih]
        simp only [List.any_cons]
        have hdec : (decide (0 < e.2)) = false := by simpa using hp
        rw [hdec]
        simp
  · intro sys s1 h
    unfold Store.flush at h
    cases hl : Store.flushLoop sys.store.order sys with
    | mk s e =>
      rw [hl] at h
      cases e with
      | none =>
        simp only [] at h
        have h1 : ({s with store.order := []} : Sys) = s1 := congrArg Prod.fst h
        rw [← h1]
      | some err => simp at h

/-- Witness for C6 (amended) at concrete inputs on the fixture store:
one add gives count 1; add-then-remove restores count 0; a remove on the
absent pair is the identity; a successful flush (of the fixture's empty
dirty set) leaves the order table empty. -/
theorem flush_order_counters_witness :
    ((Store.addFlushOrder fooSys 1 2).store.order.lookup (1, 2)).getD 0 = 1
    ∧ ((Store.removeFlushOrder (Store.addFlushOrder fooSys 1 2) 1 2).store.order.lookup
        (1, 2)).getD 0 = 0
    ∧ Store.removeFlushOrder fooSys 1 2 = fooSys
    ∧ fooSys.store.order = [] :=
  ⟨flush_order_counters.1 fooSys 1 2,
   (flush_order_counters.2.2.2.1 fooSys 1 2),
   (flush_order_counters.2.2.1 fooSys 1 2 rfl),
   (flush_order_counters.2.2.2.2.2 fooSys fooSys
     (by rw [Store.flush_of_dirty_nil fooSys rfl]; rfl))⟩

/-! ## More helper lemmas -/

theorem assocSet_assocSet [BEq α] [LawfulBEq α] (k : α) (v w : β) (l : List (α × β)) :
    assocSet k v (assocSet k w l) = assocSet k v l := by
  induction l with
  | nil => simp [assocSet]
  | cons e rest ih =>
    by_cases h : (e.1 == k) = true
    · simp [assocSet, h]
    · simp [assocSet, h, ih]

theorem assocSet_self_of_lookup [BEq α] [LawfulBEq α] (k : α) (v : β) (l : List (α × β))
    (h : l.lookup k = some v) : assocSet k v l = l := by
  induction l with
  | nil => simp [List.lookup] at h
  | cons e rest ih =>
    obtain ⟨e1, e2⟩ := e
    simp only [List.lookup] at h
    by_cases hk : (k == e1) = true
    · rw [hk] at h
      simp only [] at h
      have hke : e1 = k := by
        have := eq_of_beq hk
        exact this.symm
      have hv : e2 = v := Option.some.inj h
      subst hke
      subst hv
      simp [assocSet]
    · have hk' : (k == e1) = false := by simpa using hk
      rw [hk'] at h
      simp only [] at h
      have he : (e1 == k) = false := by
        rw [beq_eq_false_iff_ne] at hk' ⊢
        exact fun hn => hk' hn.symm
      simp [assocSet, he, ih h]

namespace Store

theorem obj_setDirty (sys : Sys) (x y : Nat) :
    (setDirty sys x).obj y = sys.obj y := by
  unfold setDirty; split <;> rfl

theorem obj_setClean (sys : Sys) (x y : Nat) :
    (setClean sys x).obj y = sys.obj y := rfl

theorem obj_setGhost (sys : Sys) (x y : Nat) :
    (setGhost sys x).obj y = sys.obj y := by
  unfold setGhost; split <;> rfl

theorem obj_setAlive (sys : Sys) (x y : Nat) :
    (setAlive sys x).obj y = sys.obj y := rfl

theorem sid_setObj (sys : Sys) (oid : Nat) (info : ObjInfo) :
    (sys.setObj oid info).store.sid = sys.store.sid := rfl

theorem sid_setDirty (sys : Sys) (oid : Nat) :
    (setDirty sys oid).store.sid = sys.store.sid := by
  unfold setDirty; split <;> rfl

theorem sid_setAlive (sys : Sys) (oid : Nat) :
    (setAlive sys oid).store.sid = sys.store.sid := rfl

theorem dirty_setGhost (sys : Sys) (oid : Nat) :
    (setGhost sys oid).store.dirty = sys.store.dirty := by
  unfold setGhost; split <;> rfl

theorem dirty_setDirty (sys : Sys) (oid : Nat) :
    (setDirty sys oid).store.dirty =
      if sys.store.dirty.contains oid then sys.store.dirty
      else sys.store.dirty ++ [oid] := by
  unfold setDirty; split
  · next h => rfl
  · next h => rfl

theorem nodup_dirty_setDirty (sys : Sys) (oid : Nat)
    (h : sys.store.dirty.Nodup) : (setDirty sys oid).store.dirty.Nodup := by
  rw [dirty_setDirty]
  split
  · exact h
  · next hc =>
    exact h.append (List.nodup_singleton oid)
      (fun a ha hb => by
        rw [List.mem_singleton] at hb
        subst hb
        exact hc (List.elem_eq_true_of_mem ha))

end Store

/-! ## C4 — usage errors: distinct conditions, raised synchronously, no
partial application -/

/-- **C4.**  Adding an object already scheduled to be added, removing an
object already scheduled to be removed, adding an object owned by a
different store, and reloading an object that was never flushed each return
the distinct named error condition of `storm/store.py` and leave the entire
system state — store bookkeeping (cache, dirty, ghosts, order) and every
object's state — exactly as it was (the raise happens before any
mutation). -/
theorem usage_errors_distinct_and_pure :
    (∀ (sys : Sys) (oid : Nat) (info : ObjInfo),
        sys.obj oid = some info →
        (info.store = none ∨ info.store = some sys.store.sid) →
        info.pending = some Pending.add →
        Store.add sys oid = (sys, some StoreErr.alreadyScheduledAdd))
    ∧ (∀ (sys : Sys) (oid : Nat) (info : ObjInfo),
        sys.obj oid = some info →
        info.store = some sys.store.sid →
        info.pending = some Pending.remove →
        Store.remove sys oid = (sys, some StoreErr.alreadyScheduledRemove))
    ∧ (∀ (sys : Sys) (oid : Nat) (info : ObjInfo) (k : Nat),
        sys.obj oid = some info →
        info.store = some k → k ≠ sys.store.sid →
        Store.add sys oid = (sys, some StoreErr.partOfAnotherStore))
    ∧ (∀ (sys : Sys) (oid : Nat) (info : ObjInfo),
        sys.obj oid = some info →
        info.store = some sys.store.sid →
        info.primaryValues = none →
        Store.reload sys oid = (sys, some StoreErr.neverFlushed))
    ∧ [StoreErr.alreadyScheduledAdd, StoreErr.alreadyScheduledRemove,
       StoreErr.partOfAnotherStore, StoreErr.neverFlushed].Nodup := by
  refine ⟨?_, ?_, ?_, ?_, by decide⟩
  · intro sys oid info hobj hown hpend
    unfold Store.add
    rw [hobj]
    simp only []
    rw [if_neg (by rcases hown with h | h <;> simp [h])]
    rw [hpend]
  · intro sys oid info hobj hstore hpend
    unfold Store.remove
    rw [hobj]
    simp only []
    rw [if_neg (by simp [hstore])]
    rw [hpend]
  · intro sys oid info k hobj hstore hk
    unfold Store.add
    rw [hobj]
    simp only []
    rw [if_pos (by simp [hstore, hk])]
  · intro sys oid info hobj hstore hpv
    unfold Store.reload
    rw [hobj]
    simp only []
    rw [if_neg (by simp [hstore])]
    rw [hpv]

/-- Witness for C4 on concrete one-object stores derived from the fixture:
a pending-add object double-added, a pending-remove object double-removed,
an object of store 7 added to store 0, and a never-flushed object
reloaded. -/
theorem usage_errors_distinct_and_pure_witness :
    (Store.add
        {fooSys with heap := [(1, {fooObj with pending := some Pending.add})]} 1
      = ({fooSys with heap := [(1, {fooObj with pending := some Pending.add})]},
         some StoreErr.alreadyScheduledAdd))
    ∧ (Store.remove
        {fooSys with heap := [(1, {fooObj with pending := some Pending.remove})]} 1
      = ({fooSys with heap := [(1, {fooObj with pending := some Pending.remove})]},
         some StoreErr.alreadyScheduledRemove))
    ∧ (Store.add {fooSys with heap := [(1, {fooObj with store := some 7})]} 1
      = ({fooSys with heap := [(1, {fooObj with store := some 7})]},
         some StoreErr.partOfAnotherStore))
    ∧ (Store.reload {fooSys with heap := [(1, {fooObj with primaryValues := none})]} 1
      = ({fooSys with heap := [(1, {fooObj with primaryValues := none})]},
         some StoreErr.neverFlushed)) :=
  ⟨usage_errors_distinct_and_pure.1 _ 1 _ rfl (Or.inr rfl) rfl,
   usage_errors_distinct_and_pure.2.1 _ 1 _ rfl rfl rfl,
   usage_errors_distinct_and_pure.2.2.1 _ 1 _ 7 rfl rfl (by decide),
   usage_errors_distinct_and_pure.2.2.2.1 _ 1 _ rfl rfl rfl⟩

/-! ## C5 — add followed by remove annihilates -/

/-- **C5.**  For an object with no pending flag on which `add` succeeds
(it is unowned, or owned by this store as a ghost), `add(obj)` followed by
`remove(obj)` before any flush succeeds and leaves the object with no
pending flag and not in the dirty set. -/
theorem add_remove_annihilate (sys : Sys) (oid : Nat) (info : ObjInfo)
    (hobj : sys.obj oid = some info)
    (hpend : info.pending = none)
    (hown : info.store = none
      ∨ (info.store = some sys.store.sid ∧ Store.isGhost sys oid = true))
    (hnodup : sys.store.dirty.Nodup) :
    (Store.add sys oid).2 = none
    ∧ (Store.remove (Store.add sys oid).1 oid).2 = none
    ∧ ((Store.remove (Store.add sys oid).1 oid).1.obj oid).map (fun i => i.pending)
        = some none
    ∧ Store.isDirty (Store.remove (Store.add sys oid).1 oid).1 oid = false := by
  have hdirty_clean : ∀ s : Sys, s.store.dirty.Nodup →
      Store.isDirty (Store.setClean s oid) oid = false := by
    intro s hnd
    unfold Store.isDirty Store.setClean
    simp only []
    rw [Bool.eq_false_iff]
    intro hc
    exact (List.Nodup.not_mem_erase hnd) (List.mem_of_elem_eq_true hc)
  rcases hown with hnone | ⟨hsid, hghost⟩
  · have hadd : Store.add sys oid
        = (Store.setDirty (sys.setObj oid
            {Store.objSave info with store := some sys.store.sid,
                                     pending := some Pending.add}) oid, none) := by
      unfold Store.add
      rw [hobj]
      simp only []
      rw [if_neg (by simp [hnone])]
      rw [hpend, hnone]
    rw [hadd]
    simp only []
    set info1 : ObjInfo :=
      {Store.objSave info with store := some sys.store.sid,
                               pending := some Pending.add} with hinfo1
    set s1 : Sys := Store.setDirty (sys.setObj oid info1) oid with hs1
    have hobj1 : s1.obj oid = some info1 := by
      rw [hs1, Store.obj_setDirty]
      exact Sys.obj_setObj_self sys oid info1
    have hsid1 : s1.store.sid = sys.store.sid := by
      rw [hs1, Store.sid_setDirty, Store.sid_setObj]
    have hrem : Store.remove s1 oid
        = (Store.setClean (Store.setGhost (s1.setObj oid {info1 with pending := none})
            oid) oid, none) := by
      unfold Store.remove
      rw [hobj1]
      simp only []
      rw [if_neg (by simp [hinfo1, hsid1])]
    rw [hrem]
    refine ⟨by trivial, by trivial, ?_, ?_⟩
    · rw [Store.obj_setClean, Store.obj_setGhost, Sys.obj_setObj_self]
      rfl
    · have hnd1 : s1.store.dirty.Nodup := by
        rw [hs1]
        exact Store.nodup_dirty_setDirty _ oid (by rw [Sys.setObj_store]; exact hnodup)
      have : (Store.setGhost (s1.setObj oid {info1 with pending := none}) oid).store.dirty.Nodup := by
        rw [Store.dirty_setGhost, Sys.setObj_store]
        exact hnd1
      exact hdirty_clean _ this
  · have hadd : Store.add sys oid
        = (Store.setDirty ((Store.setAlive sys oid).setObj oid
            {info with pending := some Pending.add}) oid, none) := by
      unfold Store.add
      rw [hobj]
      simp only []
      rw [if_neg (by simp [hsid])]
      rw [hpend, hsid]
      simp only [hghost]
      rfl
    rw [hadd]
    simp only []
    set info1 : ObjInfo := {info with pending := some Pending.add} with hinfo1
    set s1 : Sys := Store.setDirty ((Store.setAlive sys oid).setObj oid info1) oid with hs1
    have hobj1 : s1.obj oid = some info1 := by
      rw [hs1, Store.obj_setDirty]
      exact Sys.obj_setObj_self _ oid info1
    have hsid1 : s1.store.sid = sys.store.sid := by
      rw [hs1, Store.sid_setDirty, Store.sid_setObj, Store.sid_setAlive]
    have hrem : Store.remove s1 oid
        = (Store.setClean (Store.setGhost (s1.setObj oid {info1 with pending := none})
            oid) oid, none) := by
      unfold Store.remove
      rw [hobj1]
      simp only []
      rw [if_neg (by simp [hinfo1, hsid1, hsid])]
    rw [hrem]
    refine ⟨by trivial, by trivial, ?_, ?_⟩
    · rw [Store.obj_setClean, Store.obj_setGhost, Sys.obj_setObj_self]
      rfl
    · have hnd1 : s1.store.dirty.Nodup := by
        rw [hs1]
        refine Store.nodup_dirty_setDirty _ oid ?_
        rw [Sys.setObj_store]
        exact hnodup
      have : (Store.setGhost (s1.setObj oid {info1 with pending := none}) oid).store.dirty.Nodup := by
        rw [Store.dirty_setGhost, Sys.setObj_store]
        exact hnd1
      exact hdirty_clean _ this

/-- Witness for C5 on the fixture with the object unowned and unflushed:
add then remove yields no error, no pending flag, and a clean object. -/
theorem add_remove_annihilate_witness :
    (Store.add {fooSys with heap := [(1, {fooObj with store := none})]} 1).2 = none
    ∧ (Store.remove
        (Store.add {fooSys with heap := [(1, {fooObj with store := none})]} 1).1 1).2
        = none
    ∧ ((Store.remove
        (Store.add {fooSys with heap := [(1, {fooObj with store := none})]} 1).1
          1).1.obj 1).map (fun i => i.pending) = some none
    ∧ Store.isDirty
        (Store.remove
          (Store.add {fooSys with heap := [(1, {fooObj with store := none})]} 1).1 1).1
        1 = false :=
  add_remove_annihilate _ 1 {fooObj with store := none} rfl rfl (Or.inl rfl)
    (by decide)

/-! ## C10 — remove then add is not a full inverse -/

/-- **C10.**  For an object owned by the store with no pending flag,
`remove(obj)` then `add(obj)` before any flush succeeds, clears the pending
flag, but leaves the object in the dirty set; nothing else changes: the
resulting system equals the original with the object merely inserted into
the dirty set (heap, cache, ghosts, order table and connection all
unchanged). -/
theorem remove_add_not_inverse (sys : Sys) (oid : Nat) (info : ObjInfo)
    (hobj : sys.obj oid = some info)
    (hstore : info.store = some sys.store.sid)
    (hpend : info.pending = none) :
    (Store.remove sys oid).2 = none
    ∧ (Store.add (Store.remove sys oid).1 oid).2 = none
    ∧ Store.isDirty (Store.add (Store.remove sys oid).1 oid).1 oid = true
    ∧ (Store.add (Store.remove sys oid).1 oid).1
        = {sys with store.dirty :=
            if sys.store.dirty.contains oid then sys.store.dirty
            else sys.store.dirty ++ [oid]} := by
  have hrem : Store.remove sys oid
      = (Store.setDirty (sys.setObj oid {info with pending := some Pending.remove})
          oid, none) := by
    unfold Store.remove
    rw [hobj]
    simp only []
    rw [if_neg (by simp [hstore])]
    rw [hpend]
  rw [hrem]
  simp only []
  set info1 : ObjInfo := {info with pending := some Pending.remove} with hinfo1
  set s1 : Sys := Store.setDirty (sys.setObj oid info1) oid with hs1
  have hobj1 : s1.obj oid = some info1 := by
    rw [hs1, Store.obj_setDirty]
    exact Sys.obj_setObj_self sys oid info1
  have hsid1 : s1.store.sid = sys.store.sid := by
    rw [hs1, Store.sid_setDirty, Store.sid_setObj]
  have hadd : Store.add s1 oid = (s1.setObj oid {info1 with pending := none}, none) := by
    unfold Store.add
    rw [hobj1]
    simp only []
    rw [if_neg (by simp [hinfo1, hsid1, hstore])]
  rw [hadd]
  refine ⟨by trivial, by trivial, ?_, ?_⟩
  · have : Store.isDirty (s1.setObj oid {info1 with pending := none}) oid
        = Store.isDirty s1 oid := rfl
    rw [this, hs1]
    exact Store.isDirty_setDirty_self _ oid
  · have hpe : ({info1 with pending := none} : ObjInfo) = info := by
      rw [hinfo1]
      cases info
      simp only [] at hpend
      rw [hpend]
    rw [hpe]
    have hheap : (s1.setObj oid info).heap = sys.heap := by
      rw [hs1]
      show (assocSet oid info ((Store.setDirty (sys.setObj oid info1) oid).heap)) = sys.heap
      have : (Store.setDirty (sys.setObj oid info1) oid).heap
          = assocSet oid info1 sys.heap := by
        unfold Store.setDirty
        split <;> rfl
      rw [this, assocSet_assocSet]
      exact assocSet_self_of_lookup oid info sys.heap hobj
    have hstore1 : (s1.setObj oid info).store = s1.store := rfl
    cases hsys1 : s1.setObj oid info with
    | mk heap conn store nextOid =>
      have h1 : heap = sys.heap := by rw [← hheap, hsys1]
      have h2 : conn = sys.conn := by
        have : (s1.setObj oid info).conn = sys.conn := by
          rw [hs1]
          unfold Store.setDirty
          split <;> rfl
        rw [← this, hsys1]
      have h3 : store = (Store.setDirty (sys.setObj oid info1) oid).store := by
        rw [← hs1, ← hstore1, hsys1]
      have h4 : nextOid = sys.nextOid := by
        have : (s1.setObj oid info).nextOid = sys.nextOid := by
          rw [hs1]
          unfold Store.setDirty
          split <;> rfl
        rw [← this, hsys1]
      subst h1 h2 h3 h4
      have hst : (Store.setDirty (sys.setObj oid info1) oid).store
          = {sys.store with dirty :=
              if sys.store.dirty.contains oid then sys.store.dirty
              else sys.store.dirty ++ [oid]} := by
        unfold Store.setDirty
        rw [Sys.setObj_store]
        split
        · rfl
        · rfl
      rw [hst]

/-- Witness for C10 on the fixture: remove-then-add leaves object 1
pending-free but dirty, with everything else unchanged. -/
theorem remove_add_not_inverse_witness :
    (Store.remove fooSys 1).2 = none
    ∧ (Store.add (Store.remove fooSys 1).1 1).2 = none
    ∧ Store.isDirty (Store.add (Store.remove fooSys 1).1 1).1 1 = true
    ∧ (Store.add (Store.remove fooSys 1).1 1).1
        = {fooSys with store.dirty :=
            if fooSys.store.dirty.contains 1 then fooSys.store.dirty
            else fooSys.store.dirty ++ [1]} :=
  remove_add_not_inverse fooSys 1 fooObj rfl rfl rfl

/-! ## C9 — key normalization and the length assertion in `Store.get` -/

/-- **C9.**  `Store.get` wraps a non-tuple key into a one-element tuple
(a scalar key and its one-tuple behave identically); a key whose length
differs from the number of primary-key columns fails the `assert` (an
`AssertionError`, not one of the named `StoreError` conditions); and when
the key length matches, the assertion branch is unreachable. -/
theorem get_key_normalization :
    (∀ (sys : Sys) (cls : ClsInfo) (v : Val),
        Store.get sys cls (KeyArg.scalar v) = Store.get sys cls (KeyArg.tup [v]))
    ∧ (∀ (sys s1 : Sys) (cls : ClsInfo) (l : List Val),
        Store.flush sys = (s1, none) →
        l.length ≠ cls.primaryKey.length →
        Store.get sys cls (KeyArg.tup l) = (s1, Except.error GetErr.assertionFailed))
    ∧ (∀ (sys : Sys) (cls : ClsInfo) (l : List Val),
        l.length = cls.primaryKey.length →
        (Store.get sys cls (KeyArg.tup l)).2 ≠ Except.error GetErr.assertionFailed) := by
  refine ⟨?_, ?_, ?_⟩
  · intro sys cls v
    rfl
  · intro sys s1 cls l hflush hlen
    unfold Store.get
    rw [hflush]
    simp only []
    rw [if_pos hlen]
  · intro sys cls l hlen
    unfold Store.get
    cases hflush : Store.flush sys with
    | mk s e =>
      cases e with
      | some err => simp
      | none =>
        simp only []
        rw [if_neg (by rw [hlen]; exact fun h => h rfl)]
        cases s.store.cache.lookup (cls.table, l) with
        | some oid => simp
        | none =>
          simp only []
          cases (connSelect s.conn cls.table l).2 with
          | none => simp
          | some row => simp

/-- Witness for C9 on the fixture (clean store, so the flush inside `get`
is a no-op): a scalar key behaves as its one-tuple; a two-value key against
the one-column primary key fails the assertion; a length-matching key does
not. -/
theorem get_key_normalization_witness :
    Store.get fooSys fooCls (KeyArg.scalar (some 5))
      = Store.get fooSys fooCls (KeyArg.tup [some 5])
    ∧ Store.get fooSys fooCls (KeyArg.tup [some 5, some 6])
      = (fooSys, Except.error GetErr.assertionFailed)
    ∧ (Store.get fooSys fooCls (KeyArg.tup [some 5])).2
      ≠ Except.error GetErr.assertionFailed :=
  ⟨get_key_normalization.1 fooSys fooCls (some 5),
   get_key_normalization.2.1 fooSys fooSys fooCls [some 5, some 6]
     (by rw [Store.flush_of_dirty_nil fooSys rfl]; rfl) (by decide),
   get_key_normalization.2.2 fooSys fooCls [some 5] (by decide)⟩

theorem lookup_assocDel_self [BEq α] [LawfulBEq α] (k : α) (l : List (α × β)) :
    (assocDel k l).lookup k = none := by
  induction l with
  | nil => rfl
  | cons e rest ih =>
    by_cases h : (e.1 == k) = true
    · simp only [assocDel, List.filter_cons, h]
      simpa [assocDel] using ih
    · simp only [assocDel, List.filter_cons, h]
      simp only [Bool.not_false, if_pos]
      simp only [List.lookup]
      have hek : e.1 ≠ k := fun hn => h (by rw [hn]; exact beq_self_eq_true k)
      have hke : (k == e.1) = false := beq_eq_false_iff_ne.mpr (fun hn => hek hn.symm)
      rw [hke]
      simpa [assocDel] using ih

theorem lookup_assocSet_ne [BEq α] [LawfulBEq α] (k k' : α) (v : β) (l : List (α × β))
    (h : k' ≠ k) : (assocSet k v l).lookup k' = l.lookup k' := by
  induction l with
  | nil =>
    simp only [assocSet, List.lookup]
    rw [show (k' == k) = false from beq_eq_false_iff_ne.mpr h]
  | cons e rest ih =>
    by_cases he : (e.1 == k) = true
    · simp only [assocSet, he, if_pos]
      simp only [List.lookup]
      rw [show (k' == k) = false from beq_eq_false_iff_ne.mpr h]
      rw [show (k' == e.1) = false from beq_eq_false_iff_ne.mpr
        (by rw [eq_of_beq he]; exact h)]
    · simp only [assocSet, he]
      simp only [Bool.false_eq_true, if_neg, List.lookup]
      cases hke : (k' == e.1) with
      | true => rfl
      | false => exact ih

theorem flushOne_pending_remove (sys : Sys) (oid : Nat) (info : ObjInfo) (pv : List Val)
    (hc : sys.store.dirty.contains oid = true)
    (hobj : sys.obj oid = some info)
    (hpend : info.pending = some Pending.remove)
    (hpv : info.primaryValues = some pv) :
    Store.flushOne sys oid =
      { heap := assocSet oid
          {info with pending := none, hooked := false, primaryValues := none} sys.heap,
        conn := connDelete sys.conn info.cls.table pv,
        store := { sys.store with
          cache := assocDel (info.cls.table, pv) sys.store.cache,
          ghosts := if sys.store.ghosts.contains oid then sys.store.ghosts
                    else sys.store.ghosts ++ [oid],
          dirty := sys.store.dirty.erase oid,
          flushed := sys.store.flushed ++ [oid] },
        nextOid := sys.nextOid } := by
  unfold Store.flushOne
  rw [if_pos hc]
  simp only [Sys.obj] at hobj
  simp only [Sys.obj, hobj, hpend]
  unfold Store.flushAction
  simp only [hpv, Option.getD_some]
  unfold Store.removeFromCache Store.setGhost
  by_cases hg : sys.store.ghosts.contains oid = true
  · simp only [Sys.obj, Sys.setObj, lookup_assocSet_self, hpv, hg, if_true,
      assocSet_assocSet]
  · have hg' : sys.store.ghosts.contains oid = false := by simpa using hg
    simp only [Sys.obj, Sys.setObj, lookup_assocSet_self, hpv, hg', if_false,
      Bool.false_eq_true, assocSet_assocSet]

theorem flushOne_pending_add (sys : Sys) (oid : Nat) (info : ObjInfo)
    (hc : sys.store.dirty.contains oid = true)
    (hobj : sys.obj oid = some info)
    (hpend : info.pending = some Pending.add)
    (hall : ∀ c ∈ info.cls.columns, (info.values.lookup c).isSome = true)
    (hpvnone : info.primaryValues = none) :
    Store.flushOne sys oid =
      { heap := (assocSet oid {info with pending := none, hooked := true, primaryValues := some (info.cls.primaryKey.map (fun c => (info.values.lookup c).getD none)), checkpointVals := info.values} sys.heap),
        conn := (connInsert sys.conn info.cls
          (info.cls.columns.filterMap
            (fun c => (info.values.lookup c).map (fun v => (c, v))))),
        store := { sys.store with
          cache := (assocSet
            (info.cls.table,
             info.cls.primaryKey.map (fun c => (info.values.lookup c).getD none))
            oid sys.store.cache),
          ghosts := sys.store.ghosts.erase oid,
          dirty := sys.store.dirty.erase oid,
          flushed := sys.store.flushed ++ [oid] },
        nextOid := sys.nextOid } := by
  have hmiss : info.cls.columns.filter (fun c => (info.values.lookup c).isNone) = [] := by
    rw [List.filter_eq_nil_iff]
    intro c hcmem
    have h := hall c hcmem
    cases hl : info.values.lookup c with
    | none => rw [hl] at h; simp at h
    | some v => simp [hl]
  unfold Store.flushOne
  rw [if_pos hc]
  simp only [Sys.obj] at hobj
  simp only [Sys.obj, hobj, hpend]
  unfold Store.flushAction
  simp only []
  unfold Store.fillMissingValues
  simp only [Sys.obj, Sys.setObj, lookup_assocSet_self]
  simp only [hmiss, List.isEmpty_nil, if_true]
  unfold Store.enableChangeNotification
  simp only [Sys.obj, Sys.setObj, lookup_assocSet_self]
  unfold Store.addToCache Store.setAlive
  simp only [Sys.obj, Sys.setObj, lookup_assocSet_self, hpvnone]
  rw [if_neg (by simp)]
  unfold Store.checkpointObj
  simp only [Sys.obj, Sys.setObj, lookup_assocSet_self]
  simp only [Store.objCheckpoint, assocSet_assocSet]

theorem flushLoop_singleton (order : List ((Nat × Nat) × Int)) (sys : Sys) (oid : Nat)
    (hd : sys.store.dirty = [oid])
    (hp : Store.hasDirtyPred order [oid] oid = false)
    (hafter : (Store.flushOne sys oid).store.dirty = []) :
    Store.flushLoop order sys = (Store.flushOne sys oid, none) := by
  rw [Store.flushLoop]
  simp only [hd]
  split
  · next heq =>
    rw [hd] at heq
    rw [List.find?_cons_of_pos _ (by rw [hp]; rfl)] at heq
    exact absurd heq (by simp)
  · next oid' heq =>
    rw [hd] at heq
    rw [List.find?_cons_of_pos _ (by rw [hp]; rfl)] at heq
    have hoe : oid' = oid := (Option.some.inj heq).symm
    subst hoe
    exact Store.flushLoop_of_dirty_nil order _ hafter

theorem contains_insertBack (l : List Nat) (o : Nat) :
    ((if l.contains o then l else l ++ [o]).contains o) = true := by
  split
  · next h => exact h
  · simp [List.contains_eq_any_beq]

namespace Store

theorem cache_setDirty (sys : Sys) (oid : Nat) :
    (setDirty sys oid).store.cache = sys.store.cache := by
  unfold setDirty; split <;> rfl

theorem foldl_ghostDrop_store (l : List Nat) :
    ∀ s : Sys,
      (l.foldl (fun s g =>
        match s.obj g with
        | some i => s.setObj g {i with store := none}
        | none => s) s).store = s.store := by
  induction l with
  | nil => intro s; rfl
  | cons g rest ih =>
    intro s
    rw [List.foldl_cons, ih]
    cases s.obj g <;> rfl

theorem foldl_cacheSave_store (l : List ((String × List Val) × Nat)) :
    ∀ s : Sys,
      (l.foldl (fun s e =>
        match s.obj e.2 with
        | some i => s.setObj e.2 (objSave i)
        | none => s) s).store = s.store := by
  induction l with
  | nil => intro s; rfl
  | cons e rest ih =>
    intro s
    rw [List.foldl_cons, ih]
    cases s.obj e.2 <;> rfl

/-- `Store.commit` on a system with an empty dirty set: no error, the
identity cache map is untouched, the ghost set is cleared. -/
theorem commit_of_dirty_nil (sys : Sys) (h : sys.store.dirty = []) :
    (commit sys).2 = none
    ∧ (commit sys).1.store.cache = sys.store.cache
    ∧ (commit sys).1.store.ghosts = [] := by
  unfold commit
  rw [flush_of_dirty_nil sys h]
  simp only []
  rw [foldl_cacheSave_store, foldl_ghostDrop_store]
  exact ⟨by trivial, by trivial, by trivial⟩

end Store

theorem Store.setDirty_eq (sys : Sys) (oid : Nat) :
    Store.setDirty sys oid
      = {sys with store.dirty :=
          if sys.store.dirty.contains oid then sys.store.dirty
          else sys.store.dirty ++ [oid]} := by
  unfold Store.setDirty
  split
  · rfl
  · rfl

/-- **C3, amended.**  An object made a ghost by flushing a pending-remove:
its Identity Cache entry is *not* purged at the `remove` call, it *is*
purged when the pending-remove is flushed (before any commit); the ghost is
never returned by a subsequent fresh primary-key get of its class and key;
and transaction-commit does not touch the Identity Cache map — it clears
the ghost set instead. -/
theorem ghost_never_returned_cache_purge (sys : Sys) (oid : Nat) (info : ObjInfo)
    (pv : List Val)
    (hobj : sys.obj oid = some info)
    (hstore : info.store = some sys.store.sid)
    (hpend : info.pending = none)
    (hpv : info.primaryValues = some pv)
    (hdirty : sys.store.dirty = [])
    (horder : sys.store.order = [])
    (hlen : pv.length = info.cls.primaryKey.length) :
    (Store.remove sys oid).2 = none
    ∧ (Store.remove sys oid).1.store.cache = sys.store.cache
    ∧ (Store.flush (Store.remove sys oid).1).2 = none
    ∧ (Store.flush (Store.remove sys oid).1).1.store.cache.lookup (info.cls.table, pv)
        = none
    ∧ Store.isGhost (Store.flush (Store.remove sys oid).1).1 oid = true
    ∧ (Store.get (Store.flush (Store.remove sys oid).1).1 info.cls (KeyArg.tup pv)).2
        = Except.ok none
    ∧ (Store.commit (Store.flush (Store.remove sys oid).1).1).2 = none
    ∧ (Store.commit (Store.flush (Store.remove sys oid).1).1).1.store.cache
        = (Store.flush (Store.remove sys oid).1).1.store.cache
    ∧ (Store.commit (Store.flush (Store.remove sys oid).1).1).1.store.ghosts = [] := by
  have hrem : Store.remove sys oid
      = (Store.setDirty (sys.setObj oid {info with pending := some Pending.remove})
          oid, none) := by
    unfold Store.remove
    rw [hobj]
    simp only []
    rw [if_neg (by simp [hstore])]
    rw [hpend]
  set infoR : ObjInfo := {info with pending := some Pending.remove} with hinfoR
  set s1 : Sys := Store.setDirty (sys.setObj oid infoR) oid with hs1
  have hs1dirty : s1.store.dirty = [oid] := by
    rw [hs1, Store.dirty_setDirty, Sys.setObj_store, hdirty]
    rfl
  have hs1cache : s1.store.cache = sys.store.cache := by
    rw [hs1, Store.setDirty_eq]
    rfl
  have hs1order : s1.store.order = [] := by
    rw [hs1, Store.setDirty_eq]
    exact horder
  have hs1obj : s1.obj oid = some infoR := by
    rw [hs1, Store.obj_setDirty]
    exact Sys.obj_setObj_self sys oid infoR
  have hs1conn : s1.conn = sys.conn := by
    rw [hs1, Store.setDirty_eq]
    rfl
  have hs1ghosts : s1.store.ghosts = sys.store.ghosts := by
    rw [hs1, Store.setDirty_eq]
    rfl
  have hcontains : s1.store.dirty.contains oid = true := by
    rw [hs1dirty]
    simp
  have hfo := flushOne_pending_remove s1 oid infoR pv hcontains hs1obj (by rw [hinfoR])
    (by rw [hinfoR]; exact hpv)
  have hfod : (Store.flushOne s1 oid).store.dirty = [] := by
    rw [hfo]
    simp only []
    rw [hs1dirty]
    simp
  have hfl : Store.flushLoop s1.store.order s1 = (Store.flushOne s1 oid, none) :=
    flushLoop_singleton s1.store.order s1 oid hs1dirty (by rw [hs1order]; rfl) hfod
  have hflush : Store.flush s1 = ({Store.flushOne s1 oid with store.order := []}, none) := by
    unfold Store.flush
    rw [hfl]
  set s2 : Sys := {Store.flushOne s1 oid with store.order := []} with hs2
  have hs2cache : s2.store.cache = assocDel (info.cls.table, pv) sys.store.cache := by
    rw [hs2, hfo]
    simp only []
    rw [hs1cache]
  have hs2dirty : s2.store.dirty = [] := by
    rw [hs2]
    exact hfod
  have hs2ghost : Store.isGhost s2 oid = true := by
    rw [hs2]
    unfold Store.isGhost
    simp only []
    rw [hfo]
    simp only []
    exact contains_insertBack s1.store.ghosts oid
  have hs2db : s2.conn.db = assocDel (info.cls.table, pv) sys.conn.db := by
    rw [hs2]
    simp only []
    rw [hfo]
    simp only [connDelete]
    rw [hs1conn]
  have hget : (Store.get s2 info.cls (KeyArg.tup pv)).2 = Except.ok none := by
    unfold Store.get
    rw [Store.flush_of_dirty_nil s2 hs2dirty]
    simp only []
    rw [if_neg (by rw [hlen]; exact fun hq => hq rfl)]
    have hcl : ({s2 with store.order := []} : Sys).store.cache.lookup (info.cls.table, pv)
        = none := by
      show s2.store.cache.lookup (info.cls.table, pv) = none
      rw [hs2cache]
      exact lookup_assocDel_self _ _
    rw [hcl]
    simp only [connSelect]
    have hdb : ({s2 with store.order := []} : Sys).conn.db.lookup (info.cls.table, pv)
        = none := by
      show s2.conn.db.lookup (info.cls.table, pv) = none
      rw [hs2db]
      exact lookup_assocDel_self _ _
    rw [hdb]
  have hcommit := Store.commit_of_dirty_nil s2 hs2dirty
  have hseq1 : (Store.remove sys oid).1 = s1 := by rw [hrem]
  have hseq2 : Store.flush (Store.remove sys oid).1 = (s2, none) := by
    rw [hseq1, hflush]
  refine ⟨?_, ?_, ?_, ?_, ?_, ?_, ?_, ?_, ?_⟩
  · rw [hrem]
  · rw [hseq1]
    exact hs1cache
  · rw [hseq2]
  · rw [hseq2]
    rw [hs2cache]
    exact lookup_assocDel_self _ _
  · rw [hseq2]
    exact hs2ghost
  · rw [hseq2]
    exact hget
  · rw [hseq2]
    exact hcommit.1
  · rw [hseq2]
    exact hcommit.2.1
  · rw [hseq2]
    exact hcommit.2.2

/-- **C3, counterexample.**  The claim says the ghost's Identity Cache
entry is purged at transaction-commit, not at removal time.  On the
fixture: the entry for `("foo", (5,))` exists; after `remove` and a plain
`flush` — with no commit ever executed — the entry is already gone, because
`Store._flush_one` calls `_remove_from_cache` when it flushes the
pending-remove (and `Store.commit` contains no cache-purging step at
all). -/
theorem ghost_cache_purge_cex :
    fooSys.store.cache.lookup ("foo", [some 5]) = some 1
    ∧ (Store.flush (Store.remove fooSys 1).1).2 = none
    ∧ (Store.flush (Store.remove fooSys 1).1).1.store.cache.lookup ("foo", [some 5])
        = none := by
  have h1 : (Store.remove fooSys 1).1.store.dirty = [1] := by decide
  have h2 : (Store.flushOne (Store.remove fooSys 1).1 1).store.dirty = [] := by decide
  have h3 : Store.hasDirtyPred (Store.remove fooSys 1).1.store.order [1] 1 = false := by
    decide
  have hfl := flushLoop_singleton (Store.remove fooSys 1).1.store.order
    (Store.remove fooSys 1).1 1 h1 h3 h2
  refine ⟨by decide, ?_, ?_⟩
  · unfold Store.flush
    rw [hfl]
  · unfold Store.flush
    rw [hfl]
    show (Store.flushOne (Store.remove fooSys 1).1 1).store.cache.lookup
      ("foo", [some 5]) = none
    decide

/-- Witness for C3 (amended) on the fixture. -/
theorem ghost_never_returned_cache_purge_witness :
    (Store.remove fooSys 1).2 = none
    ∧ (Store.remove fooSys 1).1.store.cache = fooSys.store.cache
    ∧ (Store.flush (Store.remove fooSys 1).1).2 = none
    ∧ (Store.flush (Store.remove fooSys 1).1).1.store.cache.lookup
        (fooCls.table, [some 5]) = none
    ∧ Store.isGhost (Store.flush (Store.remove fooSys 1).1).1 1 = true
    ∧ (Store.get (Store.flush (Store.remove fooSys 1).1).1 fooCls
        (KeyArg.tup [some 5])).2 = Except.ok none
    ∧ (Store.commit (Store.flush (Store.remove fooSys 1).1).1).2 = none
    ∧ (Store.commit (Store.flush (Store.remove fooSys 1).1).1).1.store.cache
        = (Store.flush (Store.remove fooSys 1).1).1.store.cache
    ∧ (Store.commit (Store.flush (Store.remove fooSys 1).1).1).1.store.ghosts = [] :=
  ghost_never_returned_cache_purge fooSys 1 fooObj [some 5] rfl rfl rfl rfl rfl rfl
    (by decide)

/-- **C7.**  For an unowned object whose fields are all defined, after
`add(o)` and a successful `flush()` on an otherwise quiescent store,
`get(type(o), primary_key(o))` returns the identical object (the same
identity) straight from the Identity Cache, and issues no further statement
— in particular no new SELECT: the connection log is unchanged by the
`get`. -/
theorem add_flush_get_identity (sys : Sys) (oid : Nat) (info : ObjInfo)
    (hobj : sys.obj oid = some info)
    (hstore : info.store = none)
    (hpend : info.pending = none)
    (hpvnone : info.primaryValues = none)
    (hall : ∀ c ∈ info.cls.columns, (info.values.lookup c).isSome = true)
    (hdirty : sys.store.dirty = [])
    (horder : sys.store.order = []) :
    (Store.add sys oid).2 = none
    ∧ (Store.flush (Store.add sys oid).1).2 = none
    ∧ ((Store.flush (Store.add sys oid).1).1.obj oid).map (fun i => i.primaryValues)
        = some (some (info.cls.primaryKey.map (fun c => (info.values.lookup c).getD none)))
    ∧ (Store.get (Store.flush (Store.add sys oid).1).1 info.cls
        (KeyArg.tup (info.cls.primaryKey.map (fun c => (info.values.lookup c).getD none)))).2
        = Except.ok (some oid)
    ∧ (Store.get (Store.flush (Store.add sys oid).1).1 info.cls
        (KeyArg.tup (info.cls.primaryKey.map
          (fun c => (info.values.lookup c).getD none)))).1.conn.log
        = (Store.flush (Store.add sys oid).1).1.conn.log := by
  have hadd : Store.add sys oid
      = (Store.setDirty (sys.setObj oid
          {Store.objSave info with store := some sys.store.sid,
                                   pending := some Pending.add}) oid, none) := by
    unfold Store.add
    rw [hobj]
    simp only []
    rw [if_neg (by simp [hstore])]
    rw [hpend, hstore]
  set info1 : ObjInfo :=
    {Store.objSave info with store := some sys.store.sid,
                             pending := some Pending.add} with hinfo1
  set s1 : Sys := Store.setDirty (sys.setObj oid info1) oid with hs1
  have hs1dirty : s1.store.dirty = [oid] := by
    rw [hs1, Store.dirty_setDirty, Sys.setObj_store, hdirty]
    rfl
  have hs1order : s1.store.order = [] := by
    rw [hs1, Store.setDirty_eq]
    exact horder
  have hs1obj : s1.obj oid = some info1 := by
    rw [hs1, Store.obj_setDirty]
    exact Sys.obj_setObj_self sys oid info1
  have hcontains : s1.store.dirty.contains oid = true := by
    rw [hs1dirty]
    simp
  have hfo := flushOne_pending_add s1 oid info1 hcontains hs1obj (by rw [hinfo1])
    (by exact hall) (by exact hpvnone)
  have hfod : (Store.flushOne s1 oid).store.dirty = [] := by
    rw [hfo]
    simp only []
    rw [hs1dirty]
    simp
  have hfl : Store.flushLoop s1.store.order s1 = (Store.flushOne s1 oid, none) :=
    flushLoop_singleton s1.store.order s1 oid hs1dirty (by rw [hs1order]; rfl) hfod
  have hflush : Store.flush s1 = ({Store.flushOne s1 oid with store.order := []}, none) := by
    unfold Store.flush
    rw [hfl]
  set s2 : Sys := {Store.flushOne s1 oid with store.order := []} with hs2
  have hs2dirty : s2.store.dirty = [] := by
    rw [hs2]
    exact hfod
  have hs2cache : s2.store.cache.lookup
      (info.cls.table, info.cls.primaryKey.map (fun c => (info.values.lookup c).getD none))
      = some oid := by
    rw [hs2]
    show (Store.flushOne s1 oid).store.cache.lookup
      (info.cls.table, info.cls.primaryKey.map (fun c => (info.values.lookup c).getD none))
      = some oid
    rw [hfo]
    simp only []
    exact lookup_assocSet_self _ _ _
  have hs2obj : (s2.obj oid).map (fun i => i.primaryValues)
      = some (some (info.cls.primaryKey.map (fun c => (info.values.lookup c).getD none))) := by
    rw [hs2]
    show ((Store.flushOne s1 oid).obj oid).map (fun i => i.primaryValues)
      = some (some (info.cls.primaryKey.map (fun c => (info.values.lookup c).getD none)))
    rw [hfo]
    show ((assocSet oid _ s1.heap).lookup oid).map (fun i => i.primaryValues) = _
    rw [lookup_assocSet_self]
    rfl
  have hseq1 : (Store.add sys oid).1 = s1 := by rw [hadd]
  have hseq2 : Store.flush (Store.add sys oid).1 = (s2, none) := by
    rw [hseq1, hflush]
  have hget : Store.get s2 info.cls
      (KeyArg.tup (info.cls.primaryKey.map (fun c => (info.values.lookup c).getD none)))
      = ({s2 with store.order := []}, Except.ok (some oid)) := by
    unfold Store.get
    rw [Store.flush_of_dirty_nil s2 hs2dirty]
    simp only []
    rw [if_neg (by rw [List.length_map]; exact fun hq => hq rfl)]
    have hcl : ({s2 with store.order := []} : Sys).store.cache.lookup
        (info.cls.table,
         info.cls.primaryKey.map (fun c => (info.values.lookup c).getD none))
        = some oid := hs2cache
    rw [hcl]
  refine ⟨?_, ?_, ?_, ?_, ?_⟩
  · rw [hadd]
  · rw [hseq2]
  · rw [hseq2]
    exact hs2obj
  · rw [hseq2]
    rw [hget]
  · rw [hseq2]
    rw [hget]

/-- Witness for C7: the fixture object as a fresh unowned instance (store
0's heap holds it, unowned and never flushed); add, flush, then get by the
primary key `(5,)` returns identity `1` with no new statement logged. -/
theorem add_flush_get_identity_witness :
    (Store.add {fooSys with heap := [(1, {fooObj with store := none, primaryValues := none})]} 1).2 = none
    ∧ (Store.flush (Store.add {fooSys with heap := [(1, {fooObj with store := none, primaryValues := none})]} 1).1).2 = none
    ∧ ((Store.flush (Store.add {fooSys with heap := [(1, {fooObj with store := none, primaryValues := none})]} 1).1).1.obj 1).map (fun i => i.primaryValues)
        = some (some [some 5])
    ∧ (Store.get (Store.flush (Store.add {fooSys with heap := [(1, {fooObj with store := none, primaryValues := none})]} 1).1).1 fooCls (KeyArg.tup [some 5])).2
        = Except.ok (some 1)
    ∧ (Store.get (Store.flush (Store.add {fooSys with heap := [(1, {fooObj with store := none, primaryValues := none})]} 1).1).1 fooCls (KeyArg.tup [some 5])).1.conn.log
        = (Store.flush (Store.add {fooSys with heap := [(1, {fooObj with store := none, primaryValues := none})]} 1).1).1.conn.log :=
  add_flush_get_identity
    {fooSys with heap := [(1, {fooObj with store := none, primaryValues := none})]} 1
    {fooObj with store := none, primaryValues := none} rfl rfl rfl rfl (by decide) rfl rfl

/-! ## C2 — flush order: machinery -/

theorem isSome_lookup_assocSet [BEq α] [LawfulBEq α] (k x : α) (v : β) (l : List (α × β))
    (h : (l.lookup x).isSome = true) : ((assocSet k v l).lookup x).isSome = true := by
  by_cases hx : x = k
  · subst hx
    rw [lookup_assocSet_self]
    rfl
  · rw [lookup_assocSet_ne k x v l hx]
    exact h

theorem Sys.obj_isSome_setObj (sys : Sys) (oid : Nat) (info : ObjInfo) (x : Nat)
    (h : (sys.obj x).isSome = true) : ((sys.setObj oid info).obj x).isSome = true :=
  isSome_lookup_assocSet oid x info sys.heap h

namespace Store

theorem obj_isSome_addToCache (sys : Sys) (oid x : Nat)
    (h : (sys.obj x).isSome = true) : ((addToCache sys oid).obj x).isSome = true := by
  unfold addToCache
  cases ho : sys.obj oid with
  | none => exact h
  | some info =>
    simp only [ho]
    split
    · exact h
    · exact Sys.obj_isSome_setObj _ oid _ x h

theorem obj_isSome_removeFromCache (sys : Sys) (oid x : Nat)
    (h : (sys.obj x).isSome = true) : ((removeFromCache sys oid).obj x).isSome = true := by
  unfold removeFromCache
  cases ho : sys.obj oid with
  | none => exact h
  | some info =>
    simp only [ho]
    cases info.primaryValues with
    | none => exact h
    | some pv => exact Sys.obj_isSome_setObj _ oid _ x h

theorem obj_isSome_fillMissingValues (sys : Sys) (oid x : Nat)
    (h : (sys.obj x).isSome = true) :
    ((fillMissingValues sys oid).obj x).isSome = true := by
  unfold fillMissingValues
  cases ho : sys.obj oid with
  | none => exact h
  | some info =>
    simp only [ho]
    split
    · exact h
    · split
      · exact h
      · exact Sys.obj_isSome_setObj _ oid _ x h

theorem obj_isSome_enableChangeNotification (sys : Sys) (oid x : Nat)
    (h : (sys.obj x).isSome = true) :
    ((enableChangeNotification sys oid).obj x).isSome = true := by
  unfold enableChangeNotification
  cases ho : sys.obj oid with
  | none => exact h
  | some info =>
    simp only [ho]
    exact Sys.obj_isSome_setObj _ oid _ x h

theorem obj_isSome_checkpointObj (sys : Sys) (oid x : Nat)
    (h : (sys.obj x).isSome = true) :
    ((checkpointObj sys oid).obj x).isSome = true := by
  unfold checkpointObj
  cases ho : sys.obj oid with
  | none => exact h
  | some info =>
    simp only [ho]
    exact Sys.obj_isSome_setObj _ oid _ x h

theorem obj_isSome_flushAction (sys : Sys) (oid : Nat) (info : ObjInfo)
    (pending : Option Pending) (x : Nat)
    (h : (sys.obj x).isSome = true) :
    ((flushAction sys oid info pending).obj x).isSome = true := by
  unfold flushAction
  match pending with
  | some .remove =>
    simp only []
    apply obj_isSome_removeFromCache
    rw [obj_setGhost]
    exact Sys.obj_isSome_setObj _ oid _ x h
  | some .add =>
    simp only []
    apply obj_isSome_checkpointObj
    apply obj_isSome_addToCache
    rw [obj_setAlive]
    apply obj_isSome_enableChangeNotification
    exact obj_isSome_fillMissingValues _ oid x h
  | none =>
    simp only []
    split
    · apply obj_isSome_checkpointObj
      split
      · exact h
      · exact obj_isSome_addToCache _ oid x h
    · exact h

theorem obj_isSome_flushOne (sys : Sys) (oid x : Nat)
    (h : (sys.obj x).isSome = true) : ((flushOne sys oid).obj x).isSome = true := by
  unfold flushOne
  split
  · next hc =>
    cases ho : sys.obj oid with
    | none =>
      simp only [Sys.obj] at ho
      simp only [Sys.obj, ho]
      exact h
    | some info =>
      simp only [Sys.obj] at ho
      simp only [Sys.obj, ho]
      apply obj_isSome_flushAction
      exact Sys.obj_isSome_setObj _ oid _ x h
  · exact h

theorem flushOne_flushed_of_obj (sys : Sys) (oid : Nat)
    (hc : sys.store.dirty.contains oid = true)
    (hobj : (sys.obj oid).isSome = true) :
    (flushOne sys oid).store.flushed = sys.store.flushed ++ [oid] := by
  unfold flushOne
  rw [if_pos hc]
  cases ho : sys.obj oid with
  | none =>
    rw [ho] at hobj
    exact Bool.noConfusion hobj
  | some info =>
    simp only [Sys.obj] at ho
    simp only [Sys.obj, ho]
    rw [flushAction_store_flushed, Sys.setObj_store]

end Store

theorem hasDirtyPred_of_entry (order : List ((Nat × Nat) × Int)) (dirty : List Nat)
    (x : Nat) (e : (Nat × Nat) × Int) (he : e ∈ order) (hx : e.1.2 = x)
    (hpos : 0 < e.2) (hb : e.1.1 ∈ dirty) :
    Store.hasDirtyPred order dirty x = true := by
  unfold Store.hasDirtyPred
  rw [List.any_eq_true]
  refine ⟨e, he, ?_⟩
  simp only [Bool.and_eq_true]
  exact ⟨⟨by simp [hx], by simpa using hpos⟩, List.elem_eq_true_of_mem hb⟩

theorem hasDirtyPred_mono (order : List ((Nat × Nat) × Int)) (S dirty : List Nat)
    (x : Nat) (hsub : ∀ y ∈ S, y ∈ dirty)
    (h : Store.hasDirtyPred order S x = true) :
    Store.hasDirtyPred order dirty x = true := by
  unfold Store.hasDirtyPred at h ⊢
  rw [List.any_eq_true] at h ⊢
  obtain ⟨e, he, hp⟩ := h
  refine ⟨e, he, ?_⟩
  simp only [Bool.and_eq_true] at hp ⊢
  exact ⟨hp.1, List.elem_eq_true_of_mem (hsub _ (List.mem_of_elem_eq_true hp.2))⟩

/-- Acyclicity of the positive-count constraint pairs restricted to a dirty
set: every non-empty subset (sublist) contains an element with no
currently-dirty predecessor inside the subset.  For finite relations this
is equivalent to the absence of a constraint cycle among the listed
objects. -/
def AcyclicOn (order : List ((Nat × Nat) × Int)) (dirty : List Nat) : Prop :=
  ∀ S ∈ dirty.sublists, S ≠ [] → ∃ x ∈ S, Store.hasDirtyPred order S x = false

instance decAcyclicOn (order : List ((Nat × Nat) × Int)) (dirty : List Nat) :
    Decidable (AcyclicOn order dirty) :=
  decidable_of_iff
    (∀ S ∈ dirty.sublists, S ≠ [] → ∃ x ∈ S, Store.hasDirtyPred order S x = false)
    Iff.rfl

theorem AcyclicOn_erase (order : List ((Nat × Nat) × Int)) (l : List Nat) (a : Nat)
    (h : AcyclicOn order l) : AcyclicOn order (l.erase a) := by
  intro S hS hne
  refine h S ?_ hne
  rw [List.mem_sublists] at hS ⊢
  exact hS.trans (List.erase_sublist a l)

/-- `b` occurs strictly before `a` in the sequence `σ`. -/
def beforeIn (σ : List Nat) (b a : Nat) : Prop :=
  ∃ l1 l2, σ = l1 ++ a :: l2 ∧ b ∈ l1

theorem Store.flushLoop_step (order : List ((Nat × Nat) × Int)) (sys : Sys) (oid : Nat)
    (hne : sys.store.dirty ≠ [])
    (hf : sys.store.dirty.find?
      (fun o => !Store.hasDirtyPred order sys.store.dirty o) = some oid) :
    Store.flushLoop order sys = Store.flushLoop order (Store.flushOne sys oid) := by
  rw [Store.flushLoop]
  split
  · next heq => exact absurd heq hne
  · next heq =>
    split
    · next heqf =>
      rw [heqf] at hf
      exact Option.noConfusion hf
    · next oid' heqf =>
      rw [heqf] at hf
      rw [Option.some.inj hf]

theorem Store.flushLoop_stuck (order : List ((Nat × Nat) × Int)) (sys : Sys)
    (hne : sys.store.dirty ≠ [])
    (hf : sys.store.dirty.find?
      (fun o => !Store.hasDirtyPred order sys.store.dirty o) = none) :
    Store.flushLoop order sys = (sys, some StoreErr.orderingLoop) := by
  rw [Store.flushLoop]
  split
  · next heq => exact absurd heq hne
  · next heq =>
    split
    · rfl
    · next oid' heqf =>
      rw [heqf] at hf
      exact Option.noConfusion hf

theorem flushLoop_acyclic (order : List ((Nat × Nat) × Int)) :
    ∀ (n : Nat) (sys : Sys), sys.store.dirty.length ≤ n →
      sys.store.dirty.Nodup →
      (∀ x ∈ sys.store.dirty, (sys.obj x).isSome = true) →
      AcyclicOn order sys.store.dirty →
      (Store.flushLoop order sys).2 = none
      ∧ (Store.flushLoop order sys).1.store.dirty = []
      ∧ ∃ σ : List Nat,
          (Store.flushLoop order sys).1.store.flushed = sys.store.flushed ++ σ
          ∧ σ.Perm sys.store.dirty
          ∧ (∀ e ∈ order, 0 < e.2 → e.1.1 ∈ sys.store.dirty → e.1.2 ∈ σ →
              beforeIn σ e.1.1 e.1.2) := by
  intro n
  induction n with
  | zero =>
    intro sys hlen hnd hheap hacy
    have hdirty : sys.store.dirty = [] := List.length_eq_zero.mp (Nat.le_zero.mp hlen)
    rw [Store.flushLoop_of_dirty_nil order sys hdirty]
    refine ⟨rfl, hdirty, [], by simp, by simp [hdirty], ?_⟩
    intro e he hpos hb ha
    exact absurd ha (List.not_mem_nil _)
  | succ n ih =>
    intro sys hlen hnd hheap hacy
    by_cases hdirty : sys.store.dirty = []
    · rw [Store.flushLoop_of_dirty_nil order sys hdirty]
      refine ⟨rfl, hdirty, [], by simp, by simp [hdirty], ?_⟩
      intro e he hpos hb ha
      exact absurd ha (List.not_mem_nil _)
    · obtain ⟨x0, hx0mem, hx0⟩ := hacy sys.store.dirty
        (List.mem_sublists.mpr (List.Sublist.refl _)) hdirty
      have hfind : ∃ oid, sys.store.dirty.find?
          (fun o => !Store.hasDirtyPred order sys.store.dirty o) = some oid := by
        cases hf : sys.store.dirty.find?
            (fun o => !Store.hasDirtyPred order sys.store.dirty o) with
        | some oid => exact ⟨oid, rfl⟩
        | none =>
          have := List.find?_eq_none.mp hf x0 hx0mem
          rw [hx0] at this
          simp at this
      obtain ⟨oid, hf⟩ := hfind
      have hoidmem : oid ∈ sys.store.dirty := List.mem_of_find?_eq_some hf
      have hoidelig : Store.hasDirtyPred order sys.store.dirty oid = false := by
        simpa using List.find?_some hf
      have hcont : sys.store.dirty.contains oid = true := List.elem_eq_true_of_mem hoidmem
      have hstep := Store.flushLoop_step order sys oid hdirty hf
      have hdirty' : (Store.flushOne sys oid).store.dirty = sys.store.dirty.erase oid := by
        rw [Store.flushOne_store_dirty, if_pos hcont]
      have hlen' : (Store.flushOne sys oid).store.dirty.length ≤ n := by
        rw [hdirty']
        have := List.length_erase_add_one hoidmem
        omega
      have hnd' : (Store.flushOne sys oid).store.dirty.Nodup := by
        rw [hdirty']
        exact hnd.erase oid
      have hheap' : ∀ x ∈ (Store.flushOne sys oid).store.dirty,
          ((Store.flushOne sys oid).obj x).isSome = true := by
        intro x hx
        apply Store.obj_isSome_flushOne
        apply hheap
        rw [hdirty'] at hx
        exact List.mem_of_mem_erase hx
      have hacy' : AcyclicOn order (Store.flushOne sys oid).store.dirty := by
        rw [hdirty']
        exact AcyclicOn_erase order sys.store.dirty oid hacy
      obtain ⟨h1, h2, σ', hfl', hperm', htopo'⟩ :=
        ih (Store.flushOne sys oid) hlen' hnd' hheap' hacy'
      rw [hdirty'] at hperm' htopo'
      have hflushed' : (Store.flushOne sys oid).store.flushed
          = sys.store.flushed ++ [oid] :=
        Store.flushOne_flushed_of_obj sys oid hcont (hheap oid hoidmem)
      rw [hstep]
      refine ⟨h1, h2, oid :: σ', ?_, ?_, ?_⟩
      · rw [hfl', hflushed']
        simp
      · exact (hperm'.cons oid).trans (List.perm_cons_erase hoidmem).symm
      · intro e he hpos hb ha
        by_cases hae : e.1.2 = oid
        · exfalso
          have htrue := hasDirtyPred_of_entry order sys.store.dirty oid e he hae hpos hb
          rw [htrue] at hoidelig
          exact Bool.noConfusion hoidelig
        · have haσ' : e.1.2 ∈ σ' := by
            rcases List.mem_cons.mp ha with h | h
            · exact absurd h hae
            · exact h
          by_cases hbe : e.1.1 = oid
          · obtain ⟨l1, l2, hsplit⟩ := List.append_of_mem haσ'
            exact ⟨oid :: l1, l2, by rw [hsplit]; rfl,
              by rw [hbe]; exact List.mem_cons_self _ _⟩
          · have hbmem' : e.1.1 ∈ sys.store.dirty.erase oid :=
              (List.mem_erase_of_ne hbe).mpr hb
            obtain ⟨l1, l2, hsplit, hbl1⟩ := htopo' e he hpos hbmem' haσ'
            exact ⟨oid :: l1, l2, by rw [hsplit]; rfl, List.mem_cons_of_mem _ hbl1⟩

theorem flushLoop_cyclic (order : List ((Nat × Nat) × Int)) :
    ∀ (n : Nat) (sys : Sys), sys.store.dirty.length ≤ n →
      ∀ S : List Nat, S ≠ [] → (∀ x ∈ S, x ∈ sys.store.dirty) →
      (∀ x ∈ S, Store.hasDirtyPred order S x = true) →
      (Store.flushLoop order sys).2 = some StoreErr.orderingLoop
      ∧ (∀ x ∈ S, x ∈ (Store.flushLoop order sys).1.store.dirty) := by
  intro n
  induction n with
  | zero =>
    intro sys hlen S hSne hSsub hSbad
    have hdirty : sys.store.dirty = [] := List.length_eq_zero.mp (Nat.le_zero.mp hlen)
    obtain ⟨x, hx⟩ := List.exists_mem_of_ne_nil S hSne
    exact absurd (hdirty ▸ hSsub x hx) (List.not_mem_nil x)
  | succ n ih =>
    intro sys hlen S hSne hSsub hSbad
    by_cases hdirty : sys.store.dirty = []
    · obtain ⟨x, hx⟩ := List.exists_mem_of_ne_nil S hSne
      exact absurd (hdirty ▸ hSsub x hx) (List.not_mem_nil x)
    · cases hf : sys.store.dirty.find?
          (fun o => !Store.hasDirtyPred order sys.store.dirty o) with
      | none =>
        rw [Store.flushLoop_stuck order sys hdirty hf]
        exact ⟨rfl, hSsub⟩
      | some oid =>
        have hoidmem := List.mem_of_find?_eq_some hf
        have hoidelig : Store.hasDirtyPred order sys.store.dirty oid = false := by
          simpa using List.find?_some hf
        have hcont := List.elem_eq_true_of_mem hoidmem
        have hoidS : oid ∉ S := by
          intro hin
          have htrue := hasDirtyPred_mono order S sys.store.dirty oid hSsub
            (hSbad oid hin)
          rw [htrue] at hoidelig
          exact Bool.noConfusion hoidelig
        rw [Store.flushLoop_step order sys oid hdirty hf]
        have hdirty' : (Store.flushOne sys oid).store.dirty
            = sys.store.dirty.erase oid := by
          rw [Store.flushOne_store_dirty, if_pos hcont]
        refine ih (Store.flushOne sys oid) ?_ S hSne ?_ hSbad
        · rw [hdirty']
          have := List.length_erase_add_one hoidmem
          omega
        · intro x hx
          rw [hdirty']
          exact (List.mem_erase_of_ne (fun hxe : x = oid => hoidS (hxe ▸ hx))).mpr
            (hSsub x hx)

/-- **C2, amended.**  For every flush call on a store whose dirty
identities are distinct and backed by per-object state: if the
positive-count before/after constraints among the currently dirty objects
are acyclic, the flush succeeds, every dirty object is flushed (the
`"flushed"` emission sequence is a permutation of the dirty set) and the
order is a valid topological order of the constraints; if they are cyclic,
the flush raises the ordering-loop `StoreError` and the dirty set is left
non-empty — but objects handled before the cycle was detected may already
have been flushed (the pass is not rolled back). -/
theorem flush_topological (sys : Sys)
    (hnd : sys.store.dirty.Nodup)
    (hheap : ∀ x ∈ sys.store.dirty, (sys.obj x).isSome = true)
    (hfl0 : sys.store.flushed = []) :
    (AcyclicOn sys.store.order sys.store.dirty →
      (Store.flush sys).2 = none
      ∧ (Store.flush sys).1.store.dirty = []
      ∧ (Store.flush sys).1.store.flushed.Perm sys.store.dirty
      ∧ (∀ e ∈ sys.store.order, 0 < e.2 → e.1.1 ∈ sys.store.dirty →
          e.1.2 ∈ (Store.flush sys).1.store.flushed →
          beforeIn (Store.flush sys).1.store.flushed e.1.1 e.1.2))
    ∧ (¬ AcyclicOn sys.store.order sys.store.dirty →
      (Store.flush sys).2 = some StoreErr.orderingLoop
      ∧ (Store.flush sys).1.store.dirty ≠ []) := by
  constructor
  · intro hacy
    obtain ⟨h1, h2, σ, hfl, hperm, htopo⟩ :=
      flushLoop_acyclic sys.store.order sys.store.dirty.length sys le_rfl hnd hheap hacy
    unfold Store.flush
    cases hl : Store.flushLoop sys.store.order sys with
    | mk s e =>
      rw [hl] at h1 h2 hfl
      cases e with
      | some err => exact absurd h1 (by simp)
      | none =>
        simp only [] at h1 h2 hfl ⊢
        refine ⟨by trivial, h2, ?_, ?_⟩
        · show s.store.flushed.Perm sys.store.dirty
          rw [hfl, hfl0]
          simpa using hperm
        · intro e he hpos hb ha
          show beforeIn s.store.flushed e.1.1 e.1.2
          rw [hfl, hfl0]
          rw [show (({s with store.order := []} : Sys), (none : Option StoreErr)).1.store.flushed
              = s.store.flushed from rfl, hfl, hfl0] at ha
          simp only [List.nil_append] at ha ⊢
          exact htopo e he hpos hb ha
  · intro hncy
    unfold AcyclicOn at hncy
    push_neg at hncy
    obtain ⟨S, hSmem, hSne, hSbad⟩ := hncy
    have hSbad' : ∀ x ∈ S, Store.hasDirtyPred sys.store.order S x = true := by
      intro x hx
      cases hcase : Store.hasDirtyPred sys.store.order S x with
      | true => rfl
      | false => exact absurd hcase (hSbad x hx)
    have hSsub : ∀ x ∈ S, x ∈ sys.store.dirty :=
      fun x hx => (List.mem_sublists.mp hSmem).subset hx
    obtain ⟨h1, h2⟩ := flushLoop_cyclic sys.store.order sys.store.dirty.length sys
      le_rfl S hSne hSsub hSbad'
    unfold Store.flush
    cases hl : Store.flushLoop sys.store.order sys with
    | mk s e =>
      rw [hl] at h1 h2
      cases e with
      | none => exact absurd h1 (by simp)
      | some err =>
        simp only [] at h1 h2 ⊢
        refine ⟨h1, ?_⟩
        intro hnil
        obtain ⟨x, hx⟩ := List.exists_mem_of_ne_nil S hSne
        have hmem := h2 x hx
        rw [hnil] at hmem
        exact List.not_mem_nil x hmem

/-- A clean, already-flushed object for the cycle fixture: `id = n`,
checkpoint equal to the current values, change notification on. -/
def cycObj (n : Int) : ObjInfo :=
  { store := some 0, pending := none, values := [("id", some n)],
    checkpointVals := [("id", some n)], saved := some [("id", some n)],
    primaryValues := some [some n], hooked := true, cls := fooCls }

/-- Cycle fixture: three dirty objects `1, 2, 3`; constraints `2 before 3`
and `3 before 2` form a cycle, object `1` is unconstrained. -/
def cycSys : Sys :=
  { heap := [(1, cycObj 1), (2, cycObj 2), (3, cycObj 3)],
    conn := { db := [], log := [], nextSerial := 100, lastInsertPk := none },
    store := { sid := 0, cache := [], ghosts := [], dirty := [1, 2, 3],
               order := [((2, 3), 1), ((3, 2), 1)], flushed := [] },
    nextOid := 10 }

/-- **C2, counterexample.**  The claim states that with cyclic constraints
the flush raises the ordering-cycle error *and no object is flushed*.  On
the cycle fixture the constraints among the dirty objects are cyclic and
flush does raise the error — but object `1`, which is not part of the
cycle, has already been flushed when the error is raised (its `"flushed"`
event was emitted), so "no object is flushed" is false. -/
theorem flush_cycle_partial_cex :
    ¬ AcyclicOn cycSys.store.order cycSys.store.dirty
    ∧ (Store.flush cycSys).2 = some StoreErr.orderingLoop
    ∧ (Store.flush cycSys).1.store.flushed = [1] := by
  have hf1 : cycSys.store.dirty.find?
      (fun o => !Store.hasDirtyPred cycSys.store.order cycSys.store.dirty o)
      = some 1 := by decide
  have hstep := Store.flushLoop_step cycSys.store.order cycSys 1 (by decide) hf1
  set s1 := Store.flushOne cycSys 1 with hs1
  have hne : s1.store.dirty ≠ [] := by rw [hs1]; decide
  have hf2 : s1.store.dirty.find?
      (fun o => !Store.hasDirtyPred cycSys.store.order s1.store.dirty o) = none := by
    rw [hs1]
    decide
  have hstuck := Store.flushLoop_stuck cycSys.store.order s1 hne hf2
  refine ⟨by decide, ?_, ?_⟩
  · unfold Store.flush
    rw [hstep, hstuck]
  · unfold Store.flush
    rw [hstep, hstuck]
    show s1.store.flushed = [1]
    rw [hs1]
    decide

/-- Witness for C2 (amended), cyclic branch, on the cycle fixture: the
constraints are cyclic, flush raises the ordering-loop error and leaves
the dirty set non-empty. -/
theorem flush_topological_witness :
    (Store.flush cycSys).2 = some StoreErr.orderingLoop
    ∧ (Store.flush cycSys).1.store.dirty ≠ [] :=
  (flush_topological cycSys (by decide) (by decide) rfl).2 (by decide)
